import Mathlib

/-!
# `framebuf_utils.render`: a shallow embedding and its properties

Source: `src/writer/framebuf_utils/framebuf_utils.c`, function `framebuf_render`
(lines 27-95) and its function object `framebuf_render_obj` (line 96).

Conventions of the embedding.

* Objects (`mp_obj_t`) are a small inductive type: `None`, integer objects, instances of
  `FrameBuffer` (or of a subclass of it) and everything else.  An integer object is
  identified with the integer it holds, so `MP_OBJ_NEW_SMALL_INT` and the unboxing done by
  `mp_obj_get_int` are the identity on values.
* The locals `x`, `y`, `fgcol`, `bgcol`, `x0`, ... are integers.  Their arithmetic is read
  in the mathematical integers, which is what C's signed arithmetic denotes whenever it does
  not overflow.  The conversion of a pixel value to `uint32_t col` is defined for every value
  in C and is kept: `uint32_t v = v mod 2^32`.  The machine-word reading of the early-exit
  test and of the clip (`early_exit_word`, `clip_word`, `framebuf_render_body_word`) is given
  separately; it agrees with the mathematical one for every `x`, `y` of the word except the
  most negative one (`framebuf_render_body_word_exact`).
* Framebuffer structs live in a heap indexed by addresses; `dest` and `source` are
  addresses, so that a call may pass the same surface twice.
* `FrameBuffer.pixel` is not part of the repository.  It is modelled from the surface
  contract of the specification, and every call made to it is recorded in a trace.
* The two `for` loops are translated literally (guard, body, increment) by well-founded
  recursion on the distance to the loop bound, so they are total functions.
-/

namespace FramebufUtils

/-! ## Data model -/

/-- Struct `mp_obj_framebuf_t` (lines 12-18).  `width`, `height`, `stride` are `uint16_t`,
`format` is `uint8_t`.  The pixel memory `buf` is kept abstract as a map from a coordinate
`(col, row)` to the colour stored there. -/
structure mp_obj_framebuf_t where
  buf : Int → Int → Int
  width : Nat
  height : Nat
  stride : Nat
  format : Nat

/-- Runtime objects, as far as `render` distinguishes them. -/
inductive mp_obj_t where
  | mp_const_none : mp_obj_t
  | small_int (v : Int) : mp_obj_t
  | framebuf (addr : Nat) : mp_obj_t
  | other (tag : Nat) : mp_obj_t
  deriving DecidableEq

/-- Exceptions that can leave `render`. -/
inductive mp_exc where
  | TypeError : mp_exc
  | PixelRange : mp_exc
  deriving DecidableEq

/-- One call of `FrameBuffer.pixel`: with three arguments (a read) or four (a write). -/
inductive PixelCall where
  | get (self : Nat) (col row : Int) : PixelCall
  | set (self : Nat) (col row colour : Int) : PixelCall
  deriving DecidableEq

/-- The heap of framebuffer structs. -/
abbrev Heap := Nat → mp_obj_framebuf_t

/-- The state a call runs in: the framebuffers, and the pixel calls issued so far
(oldest first). -/
structure Run where
  heap : Heap
  calls : List PixelCall

/-- A computation step: a value or a raised exception, with the state it leaves. -/
abbrev Res (α : Type) := Except mp_exc α × Run

/-! ## Runtime helpers used by `render` -/

/-- Modelled from the spec: `mp_obj_cast_to_native_base(o, mp_type_framebuf)` of the
MicroPython runtime is missing from the sources.  Per section 6 it yields the native
framebuffer of an object that "is recognized as / convertible to the expected surface
abstraction", and `MP_OBJ_NULL` (here `none`) for any other object. -/
def mp_obj_cast_to_native_base : mp_obj_t → Option Nat
  | .framebuf addr => some addr
  | _ => none

/-- Modelled from the spec: `mp_obj_get_int` of the MicroPython runtime is missing from the
sources.  It returns the value of an integer object; for any other object the conversion
raises a type error. -/
def mp_obj_get_int : mp_obj_t → Except mp_exc Int
  | .small_int v => .ok v
  | _ => .error .TypeError

/-- Macro `MAX(x, y)`: `((x) > (y) ? (x) : (y))`. -/
def MAX (x y : Int) : Int := if x > y then x else y

/-- Macro `MIN(x, y)`: `((x) < (y) ? (x) : (y))`. -/
def MIN (x y : Int) : Int := if x < y then x else y

/-- Conversion of an integer to `uint32_t` (line 77): reduction modulo `2^32`. -/
def uint32_t (v : Int) : Int := v % 4294967296

/-- Whether `(col, row)` lies in `[0, width) × [0, height)` of a framebuffer. -/
def in_bounds (fb : mp_obj_framebuf_t) (col row : Int) : Prop :=
  0 ≤ col ∧ col < fb.width ∧ 0 ≤ row ∧ row < fb.height

instance (fb : mp_obj_framebuf_t) (col row : Int) : Decidable (in_bounds fb col row) := by
  unfold in_bounds; infer_instance

/-- Modelled from the spec: `FrameBuffer.pixel(self, col, row)` (the three-argument call of
`framebuf_pixel_obj`, line 77) is missing from the sources.  Per section 3, `get_pixel` is
defined for `0 ≤ col < width`, `0 ≤ row < height` and returns the colour stored there; it is
erroneous outside that range.  The call is recorded in the trace in either case. -/
def get_pixel (r : Run) (self : Nat) (col row : Int) : Res Int :=
  let r1 : Run := { r with calls := r.calls ++ [PixelCall.get self col row] }
  if in_bounds (r.heap self) col row then (.ok ((r.heap self).buf col row), r1)
  else (.error .PixelRange, r1)

/-- The framebuffer `fb` with the colour at `(col, row)` replaced. -/
def store (fb : mp_obj_framebuf_t) (col row colour : Int) : mp_obj_framebuf_t :=
  { fb with buf := fun c w => if c = col ∧ w = row then colour else fb.buf c w }

/-- Modelled from the spec: `FrameBuffer.pixel(self, col, row, colour)` (the four-argument
call of `framebuf_pixel_obj`, line 88) is missing from the sources.  Per sections 3 and 6,
`set_pixel` has the same domain as `get_pixel`, mutates the surface at that one coordinate
and stores the colour as passed ("pass-through assignment").  The call is recorded in the
trace in either case. -/
def set_pixel (r : Run) (self : Nat) (col row colour : Int) : Res Unit :=
  let calls := r.calls ++ [PixelCall.set self col row colour]
  if in_bounds (r.heap self) col row then
    (.ok (), { heap := Function.update r.heap self (store (r.heap self) col row colour),
               calls := calls })
  else (.error .PixelRange, { r with calls := calls })

/-! ## `framebuf_render` -/

/-- The inner loop, lines 73-91: `for (int cx0 = x0; cx0 < x0end; ++cx0) { ... ++cx1; }`
for the row `y0` of `dest` and the row `y1` of `source`. -/
def framebuf_render_cols (dest_in source_in : Nat) (fgcol bgcol x0end y0 y1 : Int)
    (cx0 cx1 : Int) (r : Run) : Res Unit :=
  if cx0 < x0end then
    -- source.pixel(cx1, y1)
    match get_pixel r source_in cx1 y1 with
    | (.error e, r1) => (.error e, r1)
    | (.ok v, r1) =>
      let col := uint32_t v
      -- dest.pixel(cx0, y0, bgcol/fgcol)
      match set_pixel r1 dest_in cx0 y0 (if col = 0 then bgcol else fgcol) with
      | (.error e, r2) => (.error e, r2)
      | (.ok _, r2) =>
        framebuf_render_cols dest_in source_in fgcol bgcol x0end y0 y1 (cx0 + 1) (cx1 + 1) r2
  else (.ok (), r)
termination_by (x0end - cx0).toNat
decreasing_by omega

/-- The outer loop, lines 71-93: `for (; y0 < y0end; ++y0) { int cx1 = x1; ... ++y1; }`. -/
def framebuf_render_rows (dest_in source_in : Nat) (fgcol bgcol x0 x1 x0end y0end : Int)
    (y0 y1 : Int) (r : Run) : Res Unit :=
  if y0 < y0end then
    match framebuf_render_cols dest_in source_in fgcol bgcol x0end y0 y1 x0 x1 r with
    | (.error e, r1) => (.error e, r1)
    | (.ok _, r1) =>
      framebuf_render_rows dest_in source_in fgcol bgcol x0 x1 x0end y0end (y0 + 1) (y1 + 1) r1
  else (.ok (), r)
termination_by (y0end - y0).toNat
decreasing_by omega

/-- The early-exit test of lines 53-58, on the structs of `dest` and `source`. -/
def early_exit (dest source : mp_obj_framebuf_t) (x y : Int) : Prop :=
  x ≥ dest.width ∨ y ≥ dest.height ∨ -x ≥ source.width ∨ -y ≥ source.height

instance (dest source : mp_obj_framebuf_t) (x y : Int) : Decidable (early_exit dest source x y) := by
  unfold early_exit; infer_instance

/-- Lines 53-94 of `framebuf_render`: the early exit, the clip and the two loops, once the
arguments have been converted. -/
def framebuf_render_body (dest_in source_in : Nat) (x y fgcol bgcol : Int) (r : Run) :
    Res mp_obj_t :=
  let dest := r.heap dest_in
  let source := r.heap source_in
  if early_exit dest source x y then
    -- Out of bounds, no-op.
    (.ok .mp_const_none, r)
  else
    -- Clip.
    let x0 := MAX 0 x
    let y0 := MAX 0 y
    let x1 := MAX 0 (-x)
    let y1 := MAX 0 (-y)
    let x0end := MIN dest.width (x + source.width)
    let y0end := MIN dest.height (y + source.height)
    match framebuf_render_rows dest_in source_in fgcol bgcol x0 x1 x0end y0end y0 y1 r with
    | (.error e, r1) => (.error e, r1)
    | (.ok _, r1) => (.ok .mp_const_none, r1)

/-- Function `framebuf_render(n_args, args)`, lines 27-95.  `args` holds the `n_args`
positional arguments; an index past the end of the list reads `None`. -/
def framebuf_render (r : Run) (n_args : Nat) (args : List mp_obj_t) : Res mp_obj_t :=
  -- Convert dest/src subclass to the native mp_type_framebuf.
  match mp_obj_cast_to_native_base (args.getD 0 .mp_const_none) with
  | none => (.error .TypeError, r)
  | some dest_in =>
  match mp_obj_cast_to_native_base (args.getD 1 .mp_const_none) with
  | none => (.error .TypeError, r)
  | some source_in =>
  match mp_obj_get_int (args.getD 2 .mp_const_none) with
  | .error e => (.error e, r)
  | .ok x =>
  match mp_obj_get_int (args.getD 3 .mp_const_none) with
  | .error e => (.error e, r)
  | .ok y =>
  match mp_obj_get_int (args.getD 4 .mp_const_none) with
  | .error e => (.error e, r)
  | .ok fgcol =>
  if n_args > 5 then
    match mp_obj_get_int (args.getD 5 .mp_const_none) with
    | .error e => (.error e, r)
    | .ok bgcol => framebuf_render_body dest_in source_in x y fgcol bgcol r
  else
    framebuf_render_body dest_in source_in x y fgcol 0 r

/-- Modelled from the spec: the macro `MP_DEFINE_CONST_FUN_OBJ_VAR_BETWEEN` behind
`framebuf_render_obj` (line 96) is missing from the sources.  Per section 6 the callable
takes 5 or 6 positional arguments; the runtime rejects any other number with a type error
before `framebuf_render` runs. -/
def framebuf_render_obj (r : Run) (args : List mp_obj_t) : Res mp_obj_t :=
  if 5 ≤ args.length ∧ args.length ≤ 6 then framebuf_render r args.length args
  else (.error .TypeError, r)

/-- The call `render(dest, source, x, y, fg, bg)` with six positional arguments. -/
def render (r : Run) (dest source : Nat) (x y fg bg : Int) : Res mp_obj_t :=
  framebuf_render_obj r
    [.framebuf dest, .framebuf source, .small_int x, .small_int y, .small_int fg, .small_int bg]

/-- The call `render(dest, source, x, y, fg)` with five positional arguments. -/
def render5 (r : Run) (dest source : Nat) (x y fg : Int) : Res mp_obj_t :=
  framebuf_render_obj r
    [.framebuf dest, .framebuf source, .small_int x, .small_int y, .small_int fg]

/-! ## Specification-side definitions

What the loops are expected to leave behind, written without recursion over the state:
the colour chosen for a pixel value, the pixel memory of `dest` after a row, after a block
of rows and after the whole call, and the calls issued. -/

/-- The colour chosen at lines 77-86 for a source pixel value `v`. -/
def pixel_colour (fgcol bgcol v : Int) : Int := if uint32_t v = 0 then bgcol else fgcol

/-- A pixel value that fits a 32-bit word, signed or unsigned.  Every `uint32_t` colour is one,
and so is every value of a 32-bit `mp_int_t`. -/
def fits_word32 (v : Int) : Prop := -4294967296 < v ∧ v < 4294967296

/-- A surface all of whose pixel values fit a 32-bit word. -/
def word32_pixels (fb : mp_obj_framebuf_t) : Prop :=
  ∀ col row, in_bounds fb col row → fits_word32 (fb.buf col row)

/-- Pixel memory of `dest` after the inner loop has run from `(cx0, cx1)` on rows `y0`, `y1`. -/
def row_buf (src dst : mp_obj_framebuf_t) (fgcol bgcol x0end y0 y1 cx0 cx1 : Int) :
    Int → Int → Int :=
  fun i j =>
    if j = y0 ∧ cx0 ≤ i ∧ i < x0end then pixel_colour fgcol bgcol (src.buf (cx1 + (i - cx0)) y1)
    else dst.buf i j

/-- Calls of `n` iterations of the inner loop from `(cx0, cx1)`. -/
def row_calls (d s : Nat) (src : mp_obj_framebuf_t) (fgcol bgcol y0 y1 : Int) :
    Nat → Int → Int → List PixelCall
  | 0, _, _ => []
  | n + 1, cx0, cx1 =>
    PixelCall.get s cx1 y1 :: PixelCall.set d cx0 y0 (pixel_colour fgcol bgcol (src.buf cx1 y1))
      :: row_calls d s src fgcol bgcol y0 y1 n (cx0 + 1) (cx1 + 1)

/-- Pixel memory of `dest` after the outer loop has run from `(y0, y1)`. -/
def rect_buf (src dst : mp_obj_framebuf_t) (fgcol bgcol x0 x1 x0end y0end y0 y1 : Int) :
    Int → Int → Int :=
  fun i j =>
    if y0 ≤ j ∧ j < y0end ∧ x0 ≤ i ∧ i < x0end then
      pixel_colour fgcol bgcol (src.buf (x1 + (i - x0)) (y1 + (j - y0)))
    else dst.buf i j

/-- Calls of `m` iterations of the outer loop from `(y0, y1)`. -/
def rect_calls (d s : Nat) (src : mp_obj_framebuf_t) (fgcol bgcol x0 x1 x0end : Int) :
    Nat → Int → Int → List PixelCall
  | 0, _, _ => []
  | m + 1, y0, y1 =>
    row_calls d s src fgcol bgcol y0 y1 (x0end - x0).toNat x0 x1
      ++ rect_calls d s src fgcol bgcol x0 x1 x0end m (y0 + 1) (y1 + 1)

/-- Pixel memory of `dest` after a whole call, in terms of the clipped rectangle
`[max(0,x), min(dest.width, x+source.width)) × [max(0,y), min(dest.height, y+source.height))`. -/
def clip_buf (src dst : mp_obj_framebuf_t) (x y fgcol bgcol : Int) : Int → Int → Int :=
  fun i j =>
    if max 0 x ≤ i ∧ i < min (dst.width : Int) (x + src.width) ∧
        max 0 y ≤ j ∧ j < min (dst.height : Int) (y + src.height) then
      pixel_colour fgcol bgcol (src.buf (i - x) (j - y))
    else dst.buf i j

/-- Calls of a whole call of `render` on separate surfaces. -/
def render_calls (d s : Nat) (src dst : mp_obj_framebuf_t) (x y fgcol bgcol : Int) :
    List PixelCall :=
  if early_exit dst src x y then []
  else
    rect_calls d s src fgcol bgcol (MAX 0 x) (MAX 0 (-x)) (MIN dst.width (x + src.width))
      (MIN dst.height (y + src.height) - MAX 0 y).toNat (MAX 0 y) (MAX 0 (-y))

/-- What a call addresses: whether it writes, the surface, the column and the row. -/
def PixelCall.addr : PixelCall → Bool × Nat × Int × Int
  | .get p c w => (false, p, c, w)
  | .set p c w _ => (true, p, c, w)

/-- Addresses of `n` iterations of the inner loop from `(cx0, cx1)`. -/
def row_addrs (d s : Nat) (y0 y1 : Int) : Nat → Int → Int → List (Bool × Nat × Int × Int)
  | 0, _, _ => []
  | n + 1, cx0, cx1 =>
    (false, s, cx1, y1) :: (true, d, cx0, y0) :: row_addrs d s y0 y1 n (cx0 + 1) (cx1 + 1)

/-- Addresses of `m` iterations of the outer loop from `(y0, y1)`. -/
def rect_addrs (d s : Nat) (x0 x1 x0end : Int) :
    Nat → Int → Int → List (Bool × Nat × Int × Int)
  | 0, _, _ => []
  | m + 1, y0, y1 =>
    row_addrs d s y0 y1 (x0end - x0).toNat x0 x1 ++ rect_addrs d s x0 x1 x0end m (y0 + 1) (y1 + 1)

/-- Every framebuffer has the same width and height in both heaps. -/
def same_size (h1 h2 : Heap) : Prop :=
  ∀ p, (h1 p).width = (h2 p).width ∧ (h1 p).height = (h2 p).height

/-- The calls a step issued: those in the trace of its final state that were not there in
the state `r` it started from. -/
def issued {α : Type} (r : Run) (out : Res α) : List PixelCall :=
  out.2.calls.drop r.calls.length

/-- A call stays on the surface it is meant for and inside that surface: reads go to
`source`, writes go to `dest`, and the coordinates lie in `[0,width) × [0,height)`. -/
def call_ok (h : Heap) (dest source : Nat) : PixelCall → Prop
  | .get p col row => p = source ∧ in_bounds (h source) col row
  | .set p col row _ => p = dest ∧ in_bounds (h dest) col row

/-- Addresses of the calls of a whole call of `render`. -/
def render_addrs (d s : Nat) (src dst : mp_obj_framebuf_t) (x y : Int) :
    List (Bool × Nat × Int × Int) :=
  if early_exit dst src x y then []
  else
    rect_addrs d s (MAX 0 x) (MAX 0 (-x)) (MIN dst.width (x + src.width))
      (MIN dst.height (y + src.height) - MAX 0 y).toNat (MAX 0 y) (MAX 0 (-y))

/-- An object that is an instance of the framebuffer type or of a subclass of it. -/
def is_framebuf (o : mp_obj_t) : Prop := ∃ addr, o = mp_obj_t.framebuf addr

/-- The error contract of a call started in `r` with `dest = a0`, `source = a1` and integer
coordinates and colours: a type error exactly when one of the two is not a framebuffer, the
state untouched whenever anything is raised, and success when both are framebuffers. -/
def type_check_contract (r : Run) (a0 a1 : mp_obj_t) (out : Res mp_obj_t) : Prop :=
  (out.1 = .error .TypeError ↔ ¬ (is_framebuf a0 ∧ is_framebuf a1)) ∧
  (∀ e, out.1 = .error e → out.2 = r) ∧
  (is_framebuf a0 → is_framebuf a1 → out.1 = .ok .mp_const_none)

/-- The rows of a surface, top to bottom, each row left to right. -/
def rows_of (fb : mp_obj_framebuf_t) : List (List Int) :=
  (List.range fb.height).map fun j => (List.range fb.width).map fun i => fb.buf i j

/-! ## Example states -/

/-- A framebuffer of the given size and pixel memory (stride equal to the width, format 0). -/
def mk_framebuf (w h : Nat) (f : Int → Int → Int) : mp_obj_framebuf_t :=
  { buf := f, width := w, height := h, stride := w, format := 0 }

/-- Example state: address 1 holds a 4×4 surface whose only non-zero pixel is `(2,2) = 1`,
every other address holds a 2×2 all-zero surface; no call has been issued. -/
def run_dot : Run :=
  { heap := fun a =>
      if a = 1 then mk_framebuf 4 4 (fun c w => if c = 2 ∧ w = 2 then 1 else 0)
      else mk_framebuf 2 2 (fun _ _ => 0),
    calls := [] }

/-- Example state: address 1 holds a 4×4 all-ones surface, every other address holds a 2×2
all-zero surface; no call has been issued. -/
def run_ones : Run :=
  { heap := fun a => if a = 1 then mk_framebuf 4 4 (fun _ _ => 1) else mk_framebuf 2 2 (fun _ _ => 0),
    calls := [] }

/-- Example state: address 1 holds a 4×4 all-ones surface, every other address holds a
surface of width 0 and height 2; no call has been issued. -/
def run_flat : Run :=
  { heap := fun a => if a = 1 then mk_framebuf 4 4 (fun _ _ => 1) else mk_framebuf 0 2 (fun _ _ => 0),
    calls := [] }

/-- Example state: address 1 holds a 2×2 surface with ones on its diagonal, every other
address holds a 2×2 all-zero surface; no call has been issued. -/
def run_pair : Run :=
  { heap := fun a =>
      if a = 1 then mk_framebuf 2 2 (fun c w => if c = w then 1 else 0)
      else mk_framebuf 2 2 (fun _ _ => 0),
    calls := [] }

/-- No pixel is read after it has been written: in the list of calls, no `get` of a
coordinate of a surface comes later than a `set` of that coordinate of that surface. -/
def no_read_after_write (l : List PixelCall) : Prop :=
  l.Pairwise fun a b =>
    ∀ p col row colour, a = PixelCall.set p col row colour → b ≠ PixelCall.get p col row

/-- Example state: every address holds the same 3×1 surface `[1, 0, 0]`, so the surface at
address 1 is an unmodified copy of the one at address 0; no call has been issued. -/
def run_strip : Run :=
  { heap := fun _ => mk_framebuf 3 1 (fun c _ => if c = 0 then 1 else 0),
    calls := [] }

/-- Section 4.1, clipping: first destination column of the clipped rectangle. -/
def dest_x_start (x : Int) : Int := max 0 x

/-- Section 4.1, clipping: first destination row of the clipped rectangle. -/
def dest_y_start (y : Int) : Int := max 0 y

/-- Section 4.1, clipping: the destination column just past the clipped rectangle. -/
def dest_x_end (dst src : mp_obj_framebuf_t) (x : Int) : Int :=
  min (dst.width : Int) (x + src.width)

/-- Section 4.1, clipping: the destination row just past the clipped rectangle. -/
def dest_y_end (dst src : mp_obj_framebuf_t) (y : Int) : Int :=
  min (dst.height : Int) (y + src.height)

/-- Row-major enumeration of the rectangle `[xs, xe) × [ys, ye)`: the rows `ys .. ye-1` one
after the other, and within a row the columns `xs .. xe-1`. -/
def row_major (xs xe ys ye : Int) : List (Int × Int) :=
  (List.range (ye - ys).toNat).flatMap fun (l : Nat) =>
    (List.range (xe - xs).toNat).map fun (k : Nat) => (xs + (k : Int), ys + (l : Int))

/-- The two calls made for the destination coordinate `p = (col, row)`: the read of `source`
at `(col - x, row - y)`, then the write of `dest` at `(col, row)`. -/
def pixel_step (dest source : Nat) (x y : Int) (p : Int × Int) : List (Bool × Nat × Int × Int) :=
  [(false, source, p.1 - x, p.2 - y), (true, dest, p.1, p.2)]

/-- The coordinates of the `set_pixel` calls of a trace, in the order of the calls. -/
def set_coords : List PixelCall → List (Int × Int)
  | [] => []
  | .get _ _ _ :: l => set_coords l
  | .set _ col row _ :: l => (col, row) :: set_coords l

/-- The coordinates of the `get_pixel` calls of a trace, in the order of the calls. -/
def get_coords : List PixelCall → List (Int × Int)
  | [] => []
  | .get _ col row :: l => (col, row) :: get_coords l
  | .set _ _ _ _ :: l => get_coords l

/-- The values of a `w`-bit signed machine word (`mp_int_t` on a `w`-bit build). -/
def mp_int_range (w : Nat) (v : Int) : Prop := -(2 ^ (w - 1)) ≤ v ∧ v < 2 ^ (w - 1)

instance (w : Nat) (v : Int) : Decidable (mp_int_range w v) := by
  unfold mp_int_range; infer_instance

/-- Example state: address 1 holds a 1×3 all-ones surface (one column, three rows), every
other address holds a 1×3 all-zero surface; no call has been issued. -/
def run_column : Run :=
  { heap := fun a => if a = 1 then mk_framebuf 1 3 (fun _ _ => 1) else mk_framebuf 1 3 (fun _ _ => 0),
    calls := [] }

/-- Example state: address 1 holds a 1×1 surface whose pixel value is `2^32`, every other
address holds a 1×1 all-zero surface; no call has been issued. -/
def run_wide : Run :=
  { heap := fun a =>
      if a = 1 then mk_framebuf 1 1 (fun _ _ => 4294967296) else mk_framebuf 1 1 (fun _ _ => 0),
    calls := [] }

/-! ## The machine-word reading of lines 53-69

The definitions above compute with mathematical integers.  The ones below redo the early-exit
test and the clip with `mp_int_t` a signed word of `w` bits and `int` a signed word of `ib`
bits: unary minus and addition are taken modulo `2^w`, and the six clip values are narrowed
to `int` modulo `2^ib`.  The `uint16_t` fields convert to either type without change. -/

/-- The value of an integer once stored in a two's-complement signed word of `bits` bits:
its residue modulo `2^bits` in `[-2^(bits-1), 2^(bits-1))`. -/
def wrap (bits : Nat) (v : Int) : Int := (v + 2 ^ (bits - 1)) % 2 ^ bits - 2 ^ (bits - 1)

/-- A framebuffer whose width and height are values of `uint16_t`. -/
def uint16_sizes (fb : mp_obj_framebuf_t) : Prop := fb.width < 65536 ∧ fb.height < 65536

/-- The early-exit test of lines 53-58 with `-x` and `-y` computed in a `w`-bit word. -/
def early_exit_word (w : Nat) (dest source : mp_obj_framebuf_t) (x y : Int) : Prop :=
  x ≥ dest.width ∨ y ≥ dest.height ∨ wrap w (-x) ≥ source.width ∨ wrap w (-y) ≥ source.height

instance (w : Nat) (dest source : mp_obj_framebuf_t) (x y : Int) :
    Decidable (early_exit_word w dest source x y) := by
  unfold early_exit_word; infer_instance

/-- The six `int` locals set at lines 64-69. -/
structure ClipValues where
  x0 : Int
  y0 : Int
  x1 : Int
  y1 : Int
  x0end : Int
  y0end : Int
  deriving DecidableEq

/-- Lines 64-69 with `mp_int_t` of `w` bits and `int` of `ib` bits. -/
def clip_word (w ib : Nat) (dest source : mp_obj_framebuf_t) (x y : Int) : ClipValues :=
  { x0 := wrap ib (MAX 0 x),
    y0 := wrap ib (MAX 0 y),
    x1 := wrap ib (MAX 0 (wrap w (-x))),
    y1 := wrap ib (MAX 0 (wrap w (-y))),
    x0end := wrap ib (MIN dest.width (wrap w (x + source.width))),
    y0end := wrap ib (MIN dest.height (wrap w (y + source.height))) }

/-- The max/min formulas of the clip evaluated over the mathematical integers. -/
def clip_exact (dest source : mp_obj_framebuf_t) (x y : Int) : ClipValues :=
  { x0 := max 0 x,
    y0 := max 0 y,
    x1 := max 0 (-x),
    y1 := max 0 (-y),
    x0end := min (dest.width : Int) (x + source.width),
    y0end := min (dest.height : Int) (y + source.height) }

/-- Lines 53-94 of `framebuf_render` with `mp_int_t` of `w` bits and `int` of `ib` bits. -/
def framebuf_render_body_word (w ib : Nat) (dest_in source_in : Nat) (x y fgcol bgcol : Int)
    (r : Run) : Res mp_obj_t :=
  let dest := r.heap dest_in
  let source := r.heap source_in
  if early_exit_word w dest source x y then
    -- Out of bounds, no-op.
    (.ok .mp_const_none, r)
  else
    -- Clip.
    let c := clip_word w ib dest source x y
    match framebuf_render_rows dest_in source_in fgcol bgcol c.x0 c.x1 c.x0end c.y0end
        c.y0 c.y1 r with
    | (.error e, r1) => (.error e, r1)
    | (.ok _, r1) => (.ok .mp_const_none, r1)

/-! ## The loops on separate surfaces, and on any surfaces -/

theorem run_ext {a b : Run} (h1 : a.heap = b.heap) (h2 : a.calls = b.calls) : a = b := by
  cases a; cases b; simp_all

theorem fb_ext {a b : mp_obj_framebuf_t} (h1 : a.buf = b.buf) (h2 : a.width = b.width)
    (h3 : a.height = b.height) (h4 : a.stride = b.stride) (h5 : a.format = b.format) : a = b := by
  cases a; cases b; simp_all

theorem framebuf_render_cols_sep (d s : Nat) (hds : d ≠ s) (fg bg x0end y0 y1 : Int) :
    ∀ (n : Nat) (cx0 cx1 : Int) (r : Run),
      (x0end - cx0).toNat = n →
      0 ≤ y0 → y0 < (r.heap d).height → 0 ≤ y1 → y1 < (r.heap s).height →
      0 ≤ cx0 → x0end ≤ (r.heap d).width → 0 ≤ cx1 →
      (cx0 < x0end → cx1 + (x0end - cx0) ≤ (r.heap s).width) →
      framebuf_render_cols d s fg bg x0end y0 y1 cx0 cx1 r =
        (.ok (), { heap := Function.update r.heap d
                      { r.heap d with
                        buf := row_buf (r.heap s) (r.heap d) fg bg x0end y0 y1 cx0 cx1 },
                   calls := r.calls ++ row_calls d s (r.heap s) fg bg y0 y1 n cx0 cx1 }) := by
  intro n
  induction n with
  | zero =>
    intro cx0 cx1 r hn _ _ _ _ _ _ _ _
    have hge : ¬ cx0 < x0end := by omega
    rw [framebuf_render_cols]
    simp only [hge, if_false]
    congr 1
    apply run_ext
    · simp only
      symm
      rw [Function.update_eq_self_iff]
      apply fb_ext <;> simp only
      funext i j
      simp only [row_buf]
      rw [if_neg]
      omega
    · simp [row_calls]
  | succ n ih =>
    intro cx0 cx1 r hn hy0 hy0h hy1 hy1h hcx0 hx0end hcx1 hsw
    have hlt : cx0 < x0end := by omega
    have hsw2 := hsw hlt
    rw [framebuf_render_cols]
    have hget : in_bounds (r.heap s) cx1 y1 := ⟨hcx1, by omega, hy1, hy1h⟩
    have hset : in_bounds (r.heap d) cx0 y0 := ⟨hcx0, by omega, hy0, hy0h⟩
    simp only [hlt, if_true, get_pixel, hget, set_pixel, hset]
    have hsd : s ≠ d := Ne.symm hds
    rw [ih]
    · simp only [Function.update_same, Function.update_noteq hsd, Function.update_idem,
        List.append_assoc, List.singleton_append, row_calls, pixel_colour]
      refine Prod.ext rfl ?_
      apply run_ext
      swap
      · simp
      show Function.update _ _ _ = Function.update _ _ _
      refine congrArg _ ?_
      refine fb_ext ?_ rfl rfl rfl rfl
      funext i j
      simp only [store]
      simp only [row_buf, pixel_colour]
      by_cases h1 : j = y0 ∧ cx0 + 1 ≤ i ∧ i < x0end
      · have h1' : j = y0 ∧ cx0 ≤ i ∧ i < x0end := by omega
        have : cx1 + 1 + (i - (cx0 + 1)) = cx1 + (i - cx0) := by omega
        rw [if_pos h1, if_pos h1', this]
      · rw [if_neg h1]
        by_cases h2 : i = cx0 ∧ j = y0
        · have h2' : j = y0 ∧ cx0 ≤ i ∧ i < x0end := by omega
          have : cx1 + (i - cx0) = cx1 := by omega
          rw [if_pos h2, if_pos h2', this]
        · have h2' : ¬ (j = y0 ∧ cx0 ≤ i ∧ i < x0end) := by omega
          rw [if_neg h2, if_neg h2']
    all_goals (try simp only [Function.update_same, Function.update_noteq hsd, store])
    all_goals first | assumption | omega

theorem framebuf_render_rows_sep (d s : Nat) (hds : d ≠ s) (fg bg x0 x1 x0end y0end : Int) :
    ∀ (m : Nat) (y0 y1 : Int) (r : Run),
      (y0end - y0).toNat = m →
      0 ≤ x0 → x0end ≤ (r.heap d).width → 0 ≤ x1 →
      (x0 < x0end → x1 + (x0end - x0) ≤ (r.heap s).width) →
      0 ≤ y0 → y0end ≤ (r.heap d).height → 0 ≤ y1 →
      (y0 < y0end → y1 + (y0end - y0) ≤ (r.heap s).height) →
      framebuf_render_rows d s fg bg x0 x1 x0end y0end y0 y1 r =
        (.ok (), { heap := Function.update r.heap d
                      { r.heap d with
                        buf := rect_buf (r.heap s) (r.heap d) fg bg x0 x1 x0end y0end y0 y1 },
                   calls := r.calls ++ rect_calls d s (r.heap s) fg bg x0 x1 x0end m y0 y1 }) := by
  intro m
  induction m with
  | zero =>
    intro y0 y1 r hm _ _ _ _ _ _ _ _
    have hge : ¬ y0 < y0end := by omega
    rw [framebuf_render_rows]
    simp only [hge, if_false]
    refine Prod.ext rfl ?_
    apply run_ext
    · simp only
      symm
      rw [Function.update_eq_self_iff]
      refine fb_ext ?_ rfl rfl rfl rfl
      funext i j
      simp only [rect_buf]
      rw [if_neg]
      omega
    · simp [rect_calls]
  | succ m ih =>
    intro y0 y1 r hm hx0 hx0end hx1 hsw hy0 hy0end hy1 hsh
    have hlt : y0 < y0end := by omega
    have hsh2 := hsh hlt
    have hsd : s ≠ d := Ne.symm hds
    rw [framebuf_render_rows]
    simp only [hlt, if_true]
    rw [framebuf_render_cols_sep d s hds fg bg x0end y0 y1 (x0end - x0).toNat x0 x1 r rfl
      hy0 (by omega) hy1 (by omega) hx0 hx0end hx1 hsw]
    simp only
    rw [ih]
    · simp only [Function.update_same, Function.update_noteq hsd, Function.update_idem,
        List.append_assoc, rect_calls]
      refine Prod.ext rfl ?_
      apply run_ext
      swap
      · simp
      show Function.update _ _ _ = Function.update _ _ _
      refine congrArg _ ?_
      refine fb_ext ?_ rfl rfl rfl rfl
      funext i j
      simp only [rect_buf, row_buf]
      by_cases h1 : y0 + 1 ≤ j ∧ j < y0end ∧ x0 ≤ i ∧ i < x0end
      · have h1' : y0 ≤ j ∧ j < y0end ∧ x0 ≤ i ∧ i < x0end := by omega
        have : y1 + 1 + (j - (y0 + 1)) = y1 + (j - y0) := by omega
        rw [if_pos h1, if_pos h1', this]
      · rw [if_neg h1]
        by_cases h2 : j = y0 ∧ x0 ≤ i ∧ i < x0end
        · have h2' : y0 ≤ j ∧ j < y0end ∧ x0 ≤ i ∧ i < x0end := by omega
          have : y1 + (j - y0) = y1 := by omega
          rw [if_pos h2, if_pos h2', this]
        · have h2' : ¬ (y0 ≤ j ∧ j < y0end ∧ x0 ≤ i ∧ i < x0end) := by omega
          rw [if_neg h2, if_neg h2']
    all_goals (try simp only [Function.update_same, Function.update_noteq hsd])
    all_goals first | assumption | omega

theorem MAX_eq_max (a b : Int) : MAX a b = max a b := by
  unfold MAX; split <;> omega

theorem MIN_eq_min (a b : Int) : MIN a b = min a b := by
  unfold MIN; split <;> omega

theorem framebuf_render_body_sep (d s : Nat) (hds : d ≠ s) (x y fg bg : Int) (r : Run) :
    framebuf_render_body d s x y fg bg r =
      (.ok .mp_const_none,
        { heap := Function.update r.heap d
            { r.heap d with buf := clip_buf (r.heap s) (r.heap d) x y fg bg },
          calls := r.calls ++ render_calls d s (r.heap s) (r.heap d) x y fg bg }) := by
  unfold framebuf_render_body
  by_cases he : early_exit (r.heap d) (r.heap s) x y
  · have he' := he
    unfold early_exit at he'
    simp only [he, if_true, render_calls]
    refine Prod.ext rfl ?_
    apply run_ext
    · simp only
      symm
      rw [Function.update_eq_self_iff]
      refine fb_ext ?_ rfl rfl rfl rfl
      funext i j
      simp only [clip_buf]
      rw [if_neg]
      omega
    · simp
  · have he' := he
    unfold early_exit at he'
    simp only [he, if_false, render_calls]
    rw [framebuf_render_rows_sep d s hds fg bg _ _ _ _ _ _ _ r rfl]
    · simp only
      refine Prod.ext rfl ?_
      apply run_ext
      swap
      · simp
      show Function.update _ _ _ = Function.update _ _ _
      refine congrArg _ ?_
      refine fb_ext ?_ rfl rfl rfl rfl
      funext i j
      simp only [rect_buf, clip_buf, MAX_eq_max, MIN_eq_min]
      by_cases h1 : max 0 y ≤ j ∧ j < min ((r.heap d).height : Int) (y + (r.heap s).height) ∧
          max 0 x ≤ i ∧ i < min ((r.heap d).width : Int) (x + (r.heap s).width)
      · have h1' : max 0 x ≤ i ∧ i < min ((r.heap d).width : Int) (x + (r.heap s).width) ∧
            max 0 y ≤ j ∧ j < min ((r.heap d).height : Int) (y + (r.heap s).height) := by omega
        have e1 : max 0 (-x) + (i - max 0 x) = i - x := by omega
        have e2 : max 0 (-y) + (j - max 0 y) = j - y := by omega
        rw [if_pos h1, if_pos h1', e1, e2]
      · have h1' : ¬ (max 0 x ≤ i ∧ i < min ((r.heap d).width : Int) (x + (r.heap s).width) ∧
            max 0 y ≤ j ∧ j < min ((r.heap d).height : Int) (y + (r.heap s).height)) := by omega
        rw [if_neg h1, if_neg h1']
    all_goals simp only [MAX_eq_max, MIN_eq_min]
    all_goals omega

theorem render_eq_body (r : Run) (d s : Nat) (x y fg bg : Int) :
    render r d s x y fg bg = framebuf_render_body d s x y fg bg r := by
  simp [render, framebuf_render_obj, framebuf_render, mp_obj_cast_to_native_base, mp_obj_get_int]

theorem render5_eq_body (r : Run) (d s : Nat) (x y fg : Int) :
    render5 r d s x y fg = framebuf_render_body d s x y fg 0 r := by
  simp [render5, framebuf_render_obj, framebuf_render, mp_obj_cast_to_native_base, mp_obj_get_int]

theorem framebuf_render_cols_any (d s : Nat) (fg bg x0end y0 y1 : Int) :
    ∀ (n : Nat) (cx0 cx1 : Int) (r : Run),
      (x0end - cx0).toNat = n →
      0 ≤ y0 → y0 < (r.heap d).height → 0 ≤ y1 → y1 < (r.heap s).height →
      0 ≤ cx0 → x0end ≤ (r.heap d).width → 0 ≤ cx1 →
      (cx0 < x0end → cx1 + (x0end - cx0) ≤ (r.heap s).width) →
      ∃ r1 new, framebuf_render_cols d s fg bg x0end y0 y1 cx0 cx1 r = (.ok (), r1) ∧
        same_size r1.heap r.heap ∧ r1.calls = r.calls ++ new ∧
        new.map PixelCall.addr = row_addrs d s y0 y1 n cx0 cx1 := by
  intro n
  induction n with
  | zero =>
    intro cx0 cx1 r hn _ _ _ _ _ _ _ _
    have hge : ¬ cx0 < x0end := by omega
    rw [framebuf_render_cols]
    simp only [hge, if_false]
    exact ⟨r, [], rfl, fun p => ⟨rfl, rfl⟩, by simp, rfl⟩
  | succ n ih =>
    intro cx0 cx1 r hn hy0 hy0h hy1 hy1h hcx0 hx0end hcx1 hsw
    have hlt : cx0 < x0end := by omega
    have hsw2 := hsw hlt
    rw [framebuf_render_cols]
    have hget : in_bounds (r.heap s) cx1 y1 := ⟨hcx1, by omega, hy1, hy1h⟩
    have hset : in_bounds (r.heap d) cx0 y0 := ⟨hcx0, by omega, hy0, hy0h⟩
    simp only [hlt, if_true, get_pixel, hget, set_pixel, hset]
    have hsz : ∀ c : Int, same_size (Function.update r.heap d (store (r.heap d) cx0 y0 c)) r.heap := by
      intro c p
      by_cases hp : p = d
      · subst hp; simp [store]
      · simp [Function.update_noteq hp]
    obtain ⟨r1, new, h1, h2, h3, h4⟩ := ih (cx0 + 1) (cx1 + 1)
      { heap := Function.update r.heap d (store (r.heap d) cx0 y0
          (if uint32_t ((r.heap s).buf cx1 y1) = 0 then bg else fg)),
        calls := r.calls ++ [PixelCall.get s cx1 y1] ++ [PixelCall.set d cx0 y0
          (if uint32_t ((r.heap s).buf cx1 y1) = 0 then bg else fg)] }
      (by omega) hy0 (by rw [(hsz _ d).2]; exact hy0h) hy1 (by rw [(hsz _ s).2]; exact hy1h)
      (by omega) (by rw [(hsz _ d).1]; exact hx0end) (by omega)
      (by rw [(hsz _ s).1]; omega)
    refine ⟨r1, PixelCall.get s cx1 y1 :: PixelCall.set d cx0 y0
      (if uint32_t ((r.heap s).buf cx1 y1) = 0 then bg else fg) :: new, h1, ?_, ?_, ?_⟩
    · intro p
      exact ⟨(h2 p).1.trans (hsz _ p).1, (h2 p).2.trans (hsz _ p).2⟩
    · rw [h3]; simp
    · simp only [List.map_cons, h4, row_addrs, PixelCall.addr]

theorem framebuf_render_rows_any (d s : Nat) (fg bg x0 x1 x0end y0end : Int) :
    ∀ (m : Nat) (y0 y1 : Int) (r : Run),
      (y0end - y0).toNat = m →
      0 ≤ x0 → x0end ≤ (r.heap d).width → 0 ≤ x1 →
      (x0 < x0end → x1 + (x0end - x0) ≤ (r.heap s).width) →
      0 ≤ y0 → y0end ≤ (r.heap d).height → 0 ≤ y1 →
      (y0 < y0end → y1 + (y0end - y0) ≤ (r.heap s).height) →
      ∃ r1 new, framebuf_render_rows d s fg bg x0 x1 x0end y0end y0 y1 r = (.ok (), r1) ∧
        same_size r1.heap r.heap ∧ r1.calls = r.calls ++ new ∧
        new.map PixelCall.addr = rect_addrs d s x0 x1 x0end m y0 y1 := by
  intro m
  induction m with
  | zero =>
    intro y0 y1 r hm _ _ _ _ _ _ _ _
    have hge : ¬ y0 < y0end := by omega
    rw [framebuf_render_rows]
    simp only [hge, if_false]
    exact ⟨r, [], rfl, fun p => ⟨rfl, rfl⟩, by simp, rfl⟩
  | succ m ih =>
    intro y0 y1 r hm hx0 hx0end hx1 hsw hy0 hy0end hy1 hsh
    have hlt : y0 < y0end := by omega
    have hsh2 := hsh hlt
    rw [framebuf_render_rows]
    simp only [hlt, if_true]
    obtain ⟨r1, new1, h1, h2, h3, h4⟩ := framebuf_render_cols_any d s fg bg x0end y0 y1
      (x0end - x0).toNat x0 x1 r rfl hy0 (by omega) hy1 (by omega) hx0 hx0end hx1 hsw
    rw [h1]
    simp only
    obtain ⟨r2, new2, g1, g2, g3, g4⟩ := ih (y0 + 1) (y1 + 1) r1 (by omega) hx0
      (by rw [(h2 d).1]; exact hx0end) hx1 (by rw [(h2 s).1]; exact hsw) (by omega)
      (by rw [(h2 d).2]; exact hy0end) (by omega) (by rw [(h2 s).2]; omega)
    refine ⟨r2, new1 ++ new2, g1, ?_, ?_, ?_⟩
    · intro p
      exact ⟨(g2 p).1.trans (h2 p).1, (g2 p).2.trans (h2 p).2⟩
    · rw [g3, h3]; simp
    · simp only [List.map_append, h4, g4, rect_addrs]


theorem uint32_t_eq_zero_iff (v : Int) (h : fits_word32 v) : uint32_t v = 0 ↔ v = 0 := by
  unfold fits_word32 at h
  unfold uint32_t
  omega

theorem pixel_colour_of_fits (fg bg v : Int) (h : fits_word32 v) :
    pixel_colour fg bg v = if v ≠ 0 then fg else bg := by
  unfold pixel_colour
  by_cases hv : v = 0
  · simp [hv, uint32_t]
  · have : uint32_t v ≠ 0 := fun h0 => hv ((uint32_t_eq_zero_iff v h).1 h0)
    simp [hv, this]

theorem issued_eq {α : Type} (r : Run) (out : Res α) (new : List PixelCall)
    (h : out.2.calls = r.calls ++ new) : issued r out = new := by
  unfold issued
  rw [h, List.drop_left]

theorem framebuf_render_rows_skip (d s : Nat) (fg bg x0 x1 x0end y0end : Int)
    (hx : x0end ≤ x0) :
    ∀ (m : Nat) (y0 y1 : Int) (r : Run), (y0end - y0).toNat = m →
      framebuf_render_rows d s fg bg x0 x1 x0end y0end y0 y1 r = (.ok (), r) := by
  intro m
  induction m with
  | zero =>
    intro y0 y1 r hm
    have hge : ¬ y0 < y0end := by omega
    rw [framebuf_render_rows]
    simp only [hge, if_false]
  | succ m ih =>
    intro y0 y1 r hm
    have hlt : y0 < y0end := by omega
    have hge : ¬ x0 < x0end := by omega
    rw [framebuf_render_rows, framebuf_render_cols]
    simp only [hlt, hge, if_true, if_false]
    exact ih (y0 + 1) (y1 + 1) r (by omega)

theorem framebuf_render_body_any (d s : Nat) (x y fg bg : Int) (r : Run) :
    ∃ r1 new, framebuf_render_body d s x y fg bg r = (.ok .mp_const_none, r1) ∧
      same_size r1.heap r.heap ∧ r1.calls = r.calls ++ new ∧
      new.map PixelCall.addr = render_addrs d s (r.heap s) (r.heap d) x y := by
  unfold framebuf_render_body
  by_cases he : early_exit (r.heap d) (r.heap s) x y
  · simp only [he, if_true, render_addrs]
    exact ⟨r, [], rfl, fun p => ⟨rfl, rfl⟩, by simp, rfl⟩
  · have he' := he
    unfold early_exit at he'
    simp only [he, if_false, render_addrs]
    obtain ⟨r1, new, h1, h2, h3, h4⟩ := framebuf_render_rows_any d s fg bg (MAX 0 x) (MAX 0 (-x))
      (MIN (r.heap d).width (x + (r.heap s).width)) (MIN (r.heap d).height (y + (r.heap s).height))
      _ (MAX 0 y) (MAX 0 (-y)) r rfl
      (by simp only [MAX_eq_max]; omega) (by simp only [MIN_eq_min]; omega)
      (by simp only [MAX_eq_max]; omega) (by simp only [MAX_eq_max, MIN_eq_min]; omega)
      (by simp only [MAX_eq_max]; omega) (by simp only [MIN_eq_min]; omega)
      (by simp only [MAX_eq_max]; omega) (by simp only [MAX_eq_max, MIN_eq_min]; omega)
    rw [h1]
    exact ⟨r1, new, rfl, h2, h3, h4⟩

theorem mem_row_addrs (d s : Nat) (y0 y1 : Int) :
    ∀ (n : Nat) (cx0 cx1 : Int) (a : Bool × Nat × Int × Int),
      a ∈ row_addrs d s y0 y1 n cx0 cx1 →
      ∃ k : Int, 0 ≤ k ∧ k < n ∧ (a = (false, s, cx1 + k, y1) ∨ a = (true, d, cx0 + k, y0)) := by
  intro n
  induction n with
  | zero => intro cx0 cx1 a h; simp [row_addrs] at h
  | succ n ih =>
    intro cx0 cx1 a h
    simp only [row_addrs, List.mem_cons] at h
    rcases h with h | h | h
    · exact ⟨0, le_refl _, by push_cast; omega, Or.inl (by simp [h])⟩
    · exact ⟨0, le_refl _, by push_cast; omega, Or.inr (by simp [h])⟩
    · obtain ⟨k, hk0, hk1, hk⟩ := ih (cx0 + 1) (cx1 + 1) a h
      refine ⟨k + 1, by omega, by push_cast; omega, ?_⟩
      rcases hk with hk | hk
      · left; rw [hk]; congr 3; omega
      · right; rw [hk]; congr 3; omega

theorem mem_rect_addrs (d s : Nat) (x0 x1 x0end : Int) :
    ∀ (m : Nat) (y0 y1 : Int) (a : Bool × Nat × Int × Int),
      a ∈ rect_addrs d s x0 x1 x0end m y0 y1 →
      ∃ l k : Int, 0 ≤ l ∧ l < m ∧ 0 ≤ k ∧ k < (x0end - x0).toNat ∧
        (a = (false, s, x1 + k, y1 + l) ∨ a = (true, d, x0 + k, y0 + l)) := by
  intro m
  induction m with
  | zero => intro y0 y1 a h; simp [rect_addrs] at h
  | succ m ih =>
    intro y0 y1 a h
    simp only [rect_addrs, List.mem_append] at h
    rcases h with h | h
    · obtain ⟨k, hk0, hk1, hk⟩ := mem_row_addrs d s y0 y1 _ x0 x1 a h
      refine ⟨0, k, le_refl _, by push_cast; omega, hk0, hk1, ?_⟩
      simpa using hk
    · obtain ⟨l, k, hl0, hl1, hk0, hk1, hk⟩ := ih (y0 + 1) (y1 + 1) a h
      refine ⟨l + 1, k, by omega, by push_cast; omega, hk0, hk1, ?_⟩
      rcases hk with hk | hk
      · left; rw [hk]; congr 3; omega
      · right; rw [hk]; congr 3; omega

theorem render_addrs_ok (d s : Nat) (src dst : mp_obj_framebuf_t) (x y : Int)
    (a : Bool × Nat × Int × Int) (h : a ∈ render_addrs d s src dst x y) :
    (a.1 = false ∧ a.2.1 = s ∧ in_bounds src a.2.2.1 a.2.2.2) ∨
      (a.1 = true ∧ a.2.1 = d ∧ in_bounds dst a.2.2.1 a.2.2.2) := by
  unfold render_addrs at h
  by_cases he : early_exit dst src x y
  · simp [he] at h
  · simp only [he, if_false] at h
    unfold early_exit at he
    obtain ⟨l, k, hl0, hl1, hk0, hk1, hk⟩ := mem_rect_addrs _ _ _ _ _ _ _ _ a h
    simp only [MAX_eq_max, MIN_eq_min] at hl1 hk1 hk
    rcases hk with hk | hk
    · left
      rw [hk]
      refine ⟨rfl, rfl, ?_⟩
      unfold in_bounds
      simp only
      omega
    · right
      rw [hk]
      refine ⟨rfl, rfl, ?_⟩
      unfold in_bounds
      simp only
      omega

theorem render_calls_ok (r : Run) (dest source : Nat) (x y fg bg : Int) (c : PixelCall)
    (hc : c ∈ issued r (render r dest source x y fg bg)) : call_ok r.heap dest source c := by
  obtain ⟨r1, new, h1, _, h3, h4⟩ := framebuf_render_body_any dest source x y fg bg r
  rw [render_eq_body, h1] at hc
  rw [issued_eq r _ new h3] at hc
  have ha : c.addr ∈ render_addrs dest source (r.heap source) (r.heap dest) x y := by
    rw [← h4]
    exact List.mem_map_of_mem _ hc
  have hok := render_addrs_ok _ _ _ _ _ _ _ ha
  cases c with
  | get p col row =>
    simp only [PixelCall.addr] at hok
    rcases hok with ⟨_, hp, hb⟩ | ⟨hf, _, _⟩
    · exact ⟨hp, hb⟩
    · exact absurd hf (by decide)
  | set p col row colour =>
    simp only [PixelCall.addr] at hok
    rcases hok with ⟨hf, _, _⟩ | ⟨_, hp, hb⟩
    · exact absurd hf (by decide)
    · exact ⟨hp, hb⟩

/-! ## A surface rendered onto itself at offset zero -/

theorem framebuf_render_cols_inplace (d : Nat) (fg bg x0end y0 : Int) :
    ∀ (n : Nat) (cx0 : Int) (r : Run),
      (x0end - cx0).toNat = n →
      0 ≤ y0 → y0 < (r.heap d).height → 0 ≤ cx0 → x0end ≤ (r.heap d).width →
      ∃ r1, framebuf_render_cols d d fg bg x0end y0 y0 cx0 cx0 r = (.ok (), r1) ∧
        r1.heap = Function.update r.heap d
          { r.heap d with buf := row_buf (r.heap d) (r.heap d) fg bg x0end y0 y0 cx0 cx0 } := by
  intro n
  induction n with
  | zero =>
    intro cx0 r hn _ _ _ _
    have hge : ¬ cx0 < x0end := by omega
    rw [framebuf_render_cols]
    simp only [hge, if_false]
    refine ⟨r, rfl, ?_⟩
    symm
    rw [Function.update_eq_self_iff]
    refine fb_ext ?_ rfl rfl rfl rfl
    funext i j
    simp only [row_buf]
    rw [if_neg]
    omega
  | succ n ih =>
    intro cx0 r hn hy0 hy0h hcx0 hx0end
    have hlt : cx0 < x0end := by omega
    rw [framebuf_render_cols]
    have hb : in_bounds (r.heap d) cx0 y0 := ⟨hcx0, by omega, hy0, hy0h⟩
    simp only [hlt, if_true, get_pixel, hb, set_pixel]
    obtain ⟨r1, h1, h2⟩ := ih (cx0 + 1)
      { heap := Function.update r.heap d (store (r.heap d) cx0 y0
          (if uint32_t ((r.heap d).buf cx0 y0) = 0 then bg else fg)),
        calls := r.calls ++ [PixelCall.get d cx0 y0] ++ [PixelCall.set d cx0 y0
          (if uint32_t ((r.heap d).buf cx0 y0) = 0 then bg else fg)] }
      (by omega) hy0 (by simpa [store] using hy0h) (by omega) (by simpa [store] using hx0end)
    refine ⟨r1, h1, ?_⟩
    rw [h2]
    simp only [Function.update_same, Function.update_idem]
    refine congrArg _ ?_
    refine fb_ext ?_ rfl rfl rfl rfl
    funext i j
    simp only [store, row_buf, pixel_colour]
    by_cases h1 : j = y0 ∧ cx0 + 1 ≤ i ∧ i < x0end
    · have h1' : j = y0 ∧ cx0 ≤ i ∧ i < x0end := by omega
      have e1 : cx0 + 1 + (i - (cx0 + 1)) = i := by omega
      have e2 : cx0 + (i - cx0) = i := by omega
      have h3 : ¬ (i = cx0 ∧ True) := by omega
      rw [if_pos h1, if_pos h1', e1, e2, if_neg h3]
    · rw [if_neg h1]
      by_cases h2 : i = cx0 ∧ j = y0
      · have h2' : j = y0 ∧ cx0 ≤ i ∧ i < x0end := by omega
        have e2 : cx0 + (i - cx0) = cx0 := by omega
        rw [if_pos h2, if_pos h2', e2]
      · have h2' : ¬ (j = y0 ∧ cx0 ≤ i ∧ i < x0end) := by omega
        rw [if_neg h2, if_neg h2']

theorem framebuf_render_rows_inplace (d : Nat) (fg bg x0 x0end y0end : Int) :
    ∀ (m : Nat) (y0 : Int) (r : Run),
      (y0end - y0).toNat = m →
      0 ≤ x0 → x0end ≤ (r.heap d).width → 0 ≤ y0 → y0end ≤ (r.heap d).height →
      ∃ r1, framebuf_render_rows d d fg bg x0 x0 x0end y0end y0 y0 r = (.ok (), r1) ∧
        r1.heap = Function.update r.heap d
          { r.heap d with buf := rect_buf (r.heap d) (r.heap d) fg bg x0 x0 x0end y0end y0 y0 } := by
  intro m
  induction m with
  | zero =>
    intro y0 r hm _ _ _ _
    have hge : ¬ y0 < y0end := by omega
    rw [framebuf_render_rows]
    simp only [hge, if_false]
    refine ⟨r, rfl, ?_⟩
    symm
    rw [Function.update_eq_self_iff]
    refine fb_ext ?_ rfl rfl rfl rfl
    funext i j
    simp only [rect_buf]
    rw [if_neg]
    omega
  | succ m ih =>
    intro y0 r hm hx0 hx0end hy0 hy0end
    have hlt : y0 < y0end := by omega
    rw [framebuf_render_rows]
    simp only [hlt, if_true]
    obtain ⟨r1, h1, h2⟩ := framebuf_render_cols_inplace d fg bg x0end y0 (x0end - x0).toNat x0 r
      rfl hy0 (by omega) hx0 hx0end
    rw [h1]
    simp only
    obtain ⟨r2, g1, g2⟩ := ih (y0 + 1) r1 (by omega) hx0
      (by rw [h2]; simpa using hx0end) (by omega) (by rw [h2]; simpa using hy0end)
    refine ⟨r2, g1, ?_⟩
    rw [g2, h2]
    simp only [Function.update_same, Function.update_idem]
    refine congrArg _ ?_
    refine fb_ext ?_ rfl rfl rfl rfl
    funext i j
    simp only [rect_buf, row_buf]
    by_cases h1 : y0 + 1 ≤ j ∧ j < y0end ∧ x0 ≤ i ∧ i < x0end
    · have h1' : y0 ≤ j ∧ j < y0end ∧ x0 ≤ i ∧ i < x0end := by omega
      have e1 : y0 + 1 + (j - (y0 + 1)) = j := by omega
      have e2 : y0 + (j - y0) = j := by omega
      have h3 : ¬ (j = y0 ∧ x0 ≤ x0 + (i - x0) ∧ x0 + (i - x0) < x0end) := by omega
      rw [if_pos h1, if_pos h1', e1, e2, if_neg h3]
    · rw [if_neg h1]
      by_cases h2 : j = y0 ∧ x0 ≤ i ∧ i < x0end
      · have h2' : y0 ≤ j ∧ j < y0end ∧ x0 ≤ i ∧ i < x0end := by omega
        have e2 : y0 + (j - y0) = y0 := by omega
        rw [if_pos h2, if_pos h2', e2]
      · have h2' : ¬ (y0 ≤ j ∧ j < y0end ∧ x0 ≤ i ∧ i < x0end) := by omega
        rw [if_neg h2, if_neg h2']

theorem render_zero_offset (r : Run) (d s : Nat) (fg bg : Int) :
    ∃ r1, render r d s 0 0 fg bg = (.ok .mp_const_none, r1) ∧
      r1.heap = Function.update r.heap d
        { r.heap d with buf := clip_buf (r.heap s) (r.heap d) 0 0 fg bg } := by
  by_cases hds : d = s
  · subst hds
    rw [render_eq_body]
    unfold framebuf_render_body
    by_cases he : early_exit (r.heap d) (r.heap d) 0 0
    · simp only [he, if_true]
      refine ⟨r, rfl, ?_⟩
      unfold early_exit at he
      symm
      rw [Function.update_eq_self_iff]
      refine fb_ext ?_ rfl rfl rfl rfl
      funext i j
      simp only [clip_buf]
      rw [if_neg]
      omega
    · simp only [he, if_false]
      unfold early_exit at he
      have hx : MAX 0 (-0) = MAX 0 0 := by simp
      rw [hx]
      obtain ⟨r1, h1, h2⟩ := framebuf_render_rows_inplace d fg bg (MAX 0 0)
        (MIN (r.heap d).width (0 + (r.heap d).width))
        (MIN (r.heap d).height (0 + (r.heap d).height)) _ (MAX 0 0) r rfl
        (by simp only [MAX_eq_max]; omega) (by simp only [MIN_eq_min]; omega)
        (by simp only [MAX_eq_max]; omega) (by simp only [MIN_eq_min]; omega)
      rw [h1]
      refine ⟨r1, rfl, ?_⟩
      rw [h2]
      refine congrArg _ ?_
      refine fb_ext ?_ rfl rfl rfl rfl
      funext i j
      simp only [rect_buf, clip_buf, MAX_eq_max, MIN_eq_min]
      by_cases h1 : max 0 0 ≤ j ∧ j < min ((r.heap d).height : Int) (0 + (r.heap d).height) ∧
          max 0 0 ≤ i ∧ i < min ((r.heap d).width : Int) (0 + (r.heap d).width)
      · have h1' : max 0 0 ≤ i ∧ i < min ((r.heap d).width : Int) (0 + (r.heap d).width) ∧
            max 0 0 ≤ j ∧ j < min ((r.heap d).height : Int) (0 + (r.heap d).height) := by omega
        have e1 : max (0 : Int) 0 + (i - max 0 0) = i - 0 := by omega
        have e2 : max (0 : Int) 0 + (j - max 0 0) = j - 0 := by omega
        rw [if_pos h1, if_pos h1', e1, e2]
      · have h1' : ¬ (max 0 0 ≤ i ∧ i < min ((r.heap d).width : Int) (0 + (r.heap d).width) ∧
            max 0 0 ≤ j ∧ j < min ((r.heap d).height : Int) (0 + (r.heap d).height)) := by omega
        rw [if_neg h1, if_neg h1']
  · rw [render_eq_body, framebuf_render_body_sep d s hds]
    exact ⟨_, rfl, rfl⟩

theorem pixel_colour_zero (fg bg : Int) : pixel_colour fg bg 0 = bg := by
  simp [pixel_colour, uint32_t]

theorem pixel_colour_one (fg bg : Int) : pixel_colour fg bg 1 = fg := by
  have h : uint32_t 1 ≠ 0 := by decide
  simp [pixel_colour, h]

theorem framebuf_render_body_ok (d s : Nat) (x y fg bg : Int) (r : Run) :
    (framebuf_render_body d s x y fg bg r).1 = .ok .mp_const_none := by
  obtain ⟨r1, new, h1, -⟩ := framebuf_render_body_any d s x y fg bg r
  rw [h1]

theorem framebuf_render_obj_raise_unchanged (r : Run) (args : List mp_obj_t) (e : mp_exc)
    (h : (framebuf_render_obj r args).1 = .error e) : (framebuf_render_obj r args).2 = r := by
  revert h
  unfold framebuf_render_obj framebuf_render
  repeat' split
  all_goals first
    | (intro _; rfl)
    | (intro h
       rw [framebuf_render_body_ok] at h
       exact absurd h (by simp))

theorem type_check_contract_of_ints (r : Run) (a0 a1 : mp_obj_t) (args : List mp_obj_t)
    (hobj : ∀ d s, a0 = .framebuf d → a1 = .framebuf s →
      ∃ x y fg bg, framebuf_render_obj r args = framebuf_render_body d s x y fg bg r)
    (hd : mp_obj_cast_to_native_base a0 = none → framebuf_render_obj r args = (.error .TypeError, r))
    (hs : mp_obj_cast_to_native_base a1 = none → framebuf_render_obj r args = (.error .TypeError, r)) :
    type_check_contract r a0 a1 (framebuf_render_obj r args) := by
  refine ⟨?_, fun e he => framebuf_render_obj_raise_unchanged r args e he, ?_⟩
  · constructor
    · rintro h ⟨⟨d, rfl⟩, ⟨s, rfl⟩⟩
      obtain ⟨x, y, fg, bg, hb⟩ := hobj d s rfl rfl
      rw [hb, framebuf_render_body_ok] at h
      exact absurd h (by simp)
    · intro h
      cases a0 with
      | framebuf d =>
        cases a1 with
        | framebuf s => exact absurd ⟨⟨d, rfl⟩, ⟨s, rfl⟩⟩ h
        | _ => rw [hs rfl]
      | _ => rw [hd rfl]
  · rintro ⟨d, rfl⟩ ⟨s, rfl⟩
    obtain ⟨x, y, fg, bg, hb⟩ := hobj d s rfl rfl
    rw [hb, framebuf_render_body_ok]

/-! ## Early exit, arity and argument conversion -/

/-- C4.  If `x ≥ dest.width` or `y ≥ dest.height` or `-x ≥ source.width` or
`-y ≥ source.height`, then `render` reports success (it returns `None`), issues no
`get_pixel` and no `set_pixel` call, and leaves `dest` (indeed the whole state) unchanged. -/
theorem render_early_exit_noop (r : Run) (dest source : Nat) (x y fg bg : Int)
    (h : x ≥ (r.heap dest).width ∨ y ≥ (r.heap dest).height ∨
      -x ≥ (r.heap source).width ∨ -y ≥ (r.heap source).height) :
    (render r dest source x y fg bg).1 = .ok .mp_const_none ∧
      issued r (render r dest source x y fg bg) = [] ∧
      (render r dest source x y fg bg).2.heap = r.heap := by
  have he : early_exit (r.heap dest) (r.heap source) x y := h
  have hr : render r dest source x y fg bg = (.ok .mp_const_none, r) := by
    rw [render_eq_body]
    unfold framebuf_render_body
    simp only [he, if_true]
  rw [hr]
  exact ⟨rfl, by simp [issued], rfl⟩

/-- Witness of C4: the single-dot example placed at `x = 5`, right of the 2×2 destination. -/
theorem render_early_exit_noop_witness :
    ((5 : Int) ≥ (run_dot.heap 0).width ∨ (0 : Int) ≥ (run_dot.heap 0).height ∨
      -(5 : Int) ≥ (run_dot.heap 1).width ∨ -(0 : Int) ≥ (run_dot.heap 1).height) ∧
    ((render run_dot 0 1 5 0 9 7).1 = .ok .mp_const_none ∧
      issued run_dot (render run_dot 0 1 5 0 9 7) = [] ∧
      (render run_dot 0 1 5 0 9 7).2.heap = run_dot.heap) :=
  ⟨by decide, render_early_exit_noop run_dot 0 1 5 0 9 7 (by decide)⟩

/-- C10.  Calling `render` with 5 arguments (`bg` omitted) gives the same result, the same
pixel calls and the same final state as calling it with the 6th argument `bg = 0`, whatever
objects are passed for `dest`, `source`, `x`, `y` and `fg`. -/
theorem render_default_bg (r : Run) (dest source x y fg : mp_obj_t) :
    framebuf_render_obj r [dest, source, x, y, fg] =
      framebuf_render_obj r [dest, source, x, y, fg, .small_int 0] := by
  simp only [framebuf_render_obj, framebuf_render, mp_obj_get_int, List.length_cons,
    List.length_nil, List.getD_cons_zero, List.getD_cons_succ]
  simp


/-! ## Pixels written, pixels left alone, calls issued -/

/-- C1.  For separate surfaces `dest` and `source` of any dimensions (the pixel values of
`source` fitting the 32-bit word in which `render` holds them) and every `x`, `y`, `fg`, `bg`:
`render` returns, and afterwards every destination pixel `(i, j)` with
`max(0,x) ≤ i < min(dest.width, x+source.width)` and
`max(0,y) ≤ j < min(dest.height, y+source.height)` holds `fg` if the source pixel
`(i-x, j-y)` was non-zero before the call, and `bg` otherwise. -/
theorem render_clipped_pixel (r : Run) (dest source : Nat) (x y fg bg i j : Int)
    (hsep : dest ≠ source) (hpix : word32_pixels (r.heap source))
    (hi0 : max 0 x ≤ i) (hi1 : i < min ((r.heap dest).width : Int) (x + (r.heap source).width))
    (hj0 : max 0 y ≤ j) (hj1 : j < min ((r.heap dest).height : Int) (y + (r.heap source).height)) :
    (render r dest source x y fg bg).1 = .ok .mp_const_none ∧
      ((render r dest source x y fg bg).2.heap dest).buf i j =
        if (r.heap source).buf (i - x) (j - y) ≠ 0 then fg else bg := by
  rw [render_eq_body, framebuf_render_body_sep dest source hsep]
  refine ⟨rfl, ?_⟩
  simp only [Function.update_same, clip_buf]
  rw [if_pos ⟨hi0, hi1, hj0, hj1⟩]
  apply pixel_colour_of_fits
  apply hpix
  unfold in_bounds
  omega

/-- Witness of C1: the 4×4 source with the single dot, the 2×2 destination, `x = y = -2`,
pixel `(0, 0)`. -/
theorem render_clipped_pixel_witness :
    (0 : Nat) ≠ 1 ∧ word32_pixels (run_dot.heap 1) ∧
      ((render run_dot 0 1 (-2) (-2) 9 0).1 = .ok .mp_const_none ∧
        ((render run_dot 0 1 (-2) (-2) 9 0).2.heap 0).buf 0 0 =
          if (run_dot.heap 1).buf (0 - -2) (0 - -2) ≠ 0 then 9 else 0) :=
  have hpix : word32_pixels (run_dot.heap 1) := by
    intro col row _
    show fits_word32 (if col = 2 ∧ row = 2 then 1 else 0)
    unfold fits_word32
    split <;> omega
  ⟨by decide, hpix,
    render_clipped_pixel run_dot 0 1 (-2) (-2) 9 0 0 0 (by decide) hpix
      (by decide) (by decide) (by decide) (by decide)⟩

/-- C2.  For separate surfaces `dest` and `source` and every `x`, `y`, `fg`, `bg`: after
`render`, every destination pixel outside the clipped rectangle
`[max(0,x), min(dest.width, x+source.width)) × [max(0,y), min(dest.height, y+source.height))`
has the value it had before the call, the source surface is unchanged, and every `set_pixel`
call issued is on `dest`. -/
theorem render_frame (r : Run) (dest source : Nat) (x y fg bg : Int) (hsep : dest ≠ source) :
    (∀ i j : Int,
        ¬ (max 0 x ≤ i ∧ i < min ((r.heap dest).width : Int) (x + (r.heap source).width) ∧
           max 0 y ≤ j ∧ j < min ((r.heap dest).height : Int) (y + (r.heap source).height)) →
        ((render r dest source x y fg bg).2.heap dest).buf i j = (r.heap dest).buf i j) ∧
      (render r dest source x y fg bg).2.heap source = r.heap source ∧
      (∀ p col row colour,
        PixelCall.set p col row colour ∈ issued r (render r dest source x y fg bg) → p = dest) := by
  refine ⟨?_, ?_, ?_⟩
  · intro i j hout
    rw [render_eq_body, framebuf_render_body_sep dest source hsep]
    simp only [Function.update_same, clip_buf]
    rw [if_neg hout]
  · rw [render_eq_body, framebuf_render_body_sep dest source hsep]
    simp only [Function.update_noteq (Ne.symm hsep)]
  · intro p col row colour hc
    exact (render_calls_ok r dest source x y fg bg _ hc).1

/-- Witness of C2: the 4×4 all-ones source placed at `(1, 1)` on the 2×2 destination. -/
theorem render_frame_witness :
    (0 : Nat) ≠ 1 ∧
      ((∀ i j : Int,
        ¬ (max 0 1 ≤ i ∧ i < min ((run_ones.heap 0).width : Int) (1 + (run_ones.heap 1).width) ∧
           max 0 1 ≤ j ∧ j < min ((run_ones.heap 0).height : Int) (1 + (run_ones.heap 1).height)) →
        ((render run_ones 0 1 1 1 9 7).2.heap 0).buf i j = (run_ones.heap 0).buf i j) ∧
      (render run_ones 0 1 1 1 9 7).2.heap 1 = run_ones.heap 1 ∧
      (∀ p col row colour,
        PixelCall.set p col row colour ∈ issued run_ones (render run_ones 0 1 1 1 9 7) → p = 0)) :=
  ⟨by decide, render_frame run_ones 0 1 1 1 9 7 (by decide)⟩

/-- C3.  For all `dest`, `source` (the same surface or not), `x`, `y`, `fg`, `bg`: every
`get_pixel` call issued by `render` is on `source` with `0 ≤ col < source.width` and
`0 ≤ row < source.height`, and every `set_pixel` call is on `dest` with
`0 ≤ col < dest.width` and `0 ≤ row < dest.height`. -/
theorem render_calls_in_bounds (r : Run) (dest source : Nat) (x y fg bg : Int) :
    ∀ c ∈ issued r (render r dest source x y fg bg), call_ok r.heap dest source c :=
  fun c hc => render_calls_ok r dest source x y fg bg c hc

/-- Witness of C3: the write of destination pixel `(0, 0)` in the single-dot example. -/
theorem render_calls_in_bounds_witness :
    PixelCall.set 0 0 0 9 ∈ issued run_dot (render run_dot 0 1 (-2) (-2) 9 0) ∧
      call_ok run_dot.heap 0 1 (PixelCall.set 0 0 0 9) :=
  have hm : PixelCall.set 0 0 0 9 ∈ issued run_dot (render run_dot 0 1 (-2) (-2) 9 0) := by
    rw [render_eq_body, framebuf_render_body_sep 0 1 (by decide), issued_eq _ _ _ rfl]
    simp [render_calls, early_exit, run_dot, mk_framebuf, MAX, MIN, rect_calls, row_calls,
      pixel_colour_one]
  ⟨hm, render_calls_in_bounds run_dot 0 1 (-2) (-2) 9 0 _ hm⟩

/-- C6.  If one of `dest.width`, `dest.height`, `source.width`, `source.height` is 0, then
for every `x`, `y`, `fg`, `bg` the call succeeds, issues no pixel call and leaves the state
unchanged, whether or not the early-exit test fires. -/
theorem render_zero_size_noop (r : Run) (dest source : Nat) (x y fg bg : Int)
    (h : (r.heap dest).width = 0 ∨ (r.heap dest).height = 0 ∨
      (r.heap source).width = 0 ∨ (r.heap source).height = 0) :
    (render r dest source x y fg bg).1 = .ok .mp_const_none ∧
      issued r (render r dest source x y fg bg) = [] ∧
      (render r dest source x y fg bg).2.heap = r.heap := by
  have hr : render r dest source x y fg bg = (.ok .mp_const_none, r) := by
    rw [render_eq_body]
    unfold framebuf_render_body
    by_cases he : early_exit (r.heap dest) (r.heap source) x y
    · simp only [he, if_true]
    · simp only [he, if_false]
      unfold early_exit at he
      by_cases hx : MIN (r.heap dest).width (x + (r.heap source).width) ≤ MAX 0 x
      · rw [framebuf_render_rows_skip _ _ _ _ _ _ _ _ hx _ _ _ _ rfl]
      · have hy : ¬ MAX 0 y < MIN (r.heap dest).height (y + (r.heap source).height) := by
          simp only [MAX_eq_max, MIN_eq_min] at hx ⊢
          omega
        rw [framebuf_render_rows]
        simp only [hy, if_false]
  rw [hr]
  exact ⟨rfl, by simp [issued], rfl⟩

/-- Witness of C6: a destination of width 0 with `-source.width < x < 0`, where the
early-exit test is false. -/
theorem render_zero_size_noop_witness :
    ((run_flat.heap 0).width = 0 ∨ (run_flat.heap 0).height = 0 ∨
      (run_flat.heap 1).width = 0 ∨ (run_flat.heap 1).height = 0) ∧
    ¬ early_exit (run_flat.heap 0) (run_flat.heap 1) (-1) 0 ∧
    ((render run_flat 0 1 (-1) 0 9 7).1 = .ok .mp_const_none ∧
      issued run_flat (render run_flat 0 1 (-1) 0 9 7) = [] ∧
      (render run_flat 0 1 (-1) 0 9 7).2.heap = run_flat.heap) :=
  ⟨by decide, by decide, render_zero_size_noop run_flat 0 1 (-1) 0 9 7 (by decide)⟩


/-! ## Full overlap -/

/-- C7.  For every `w`, `h`, every `dest` and `source` both of dimensions `w × h` (the same
surface or not; the pixel values of `source` fitting the 32-bit word in which `render` holds
them) and every `fg`, `bg`: `render(dest, source, 0, 0, fg, bg)` returns, and afterwards for
every `(i, j)` in `[0,w) × [0,h)` the destination pixel `(i, j)` equals `fg` if the source
pixel `(i, j)` was non-zero before the call and `bg` otherwise. -/
theorem render_full_overlap (r : Run) (dest source : Nat) (w h : Nat) (fg bg i j : Int)
    (hdw : (r.heap dest).width = w) (hdh : (r.heap dest).height = h)
    (hsw : (r.heap source).width = w) (hsh : (r.heap source).height = h)
    (hpix : word32_pixels (r.heap source))
    (hi : 0 ≤ i ∧ i < w) (hj : 0 ≤ j ∧ j < h) :
    (render r dest source 0 0 fg bg).1 = .ok .mp_const_none ∧
      ((render r dest source 0 0 fg bg).2.heap dest).buf i j =
        if (r.heap source).buf i j ≠ 0 then fg else bg := by
  obtain ⟨r1, h1, h2⟩ := render_zero_offset r dest source fg bg
  rw [h1]
  refine ⟨rfl, ?_⟩
  simp only [h2, Function.update_same, clip_buf]
  rw [if_pos (by rw [hdw, hdh, hsw, hsh]; omega)]
  have hb : in_bounds (r.heap source) (i - 0) (j - 0) := by
    unfold in_bounds
    rw [hsw, hsh]
    omega
  rw [pixel_colour_of_fits fg bg _ (hpix _ _ hb)]
  simp

/-- Witness of C7: two separate 2×2 surfaces, the source with ones on its diagonal, pixel
`(1, 1)`. -/
theorem render_full_overlap_witness :
    (run_pair.heap 0).width = 2 ∧ (run_pair.heap 0).height = 2 ∧
    (run_pair.heap 1).width = 2 ∧ (run_pair.heap 1).height = 2 ∧
    word32_pixels (run_pair.heap 1) ∧ ((0 : Int) ≤ 1 ∧ (1 : Int) < (2 : Nat)) ∧
    ((render run_pair 0 1 0 0 9 7).1 = .ok .mp_const_none ∧
      ((render run_pair 0 1 0 0 9 7).2.heap 0).buf 1 1 =
        if (run_pair.heap 1).buf 1 1 ≠ 0 then 9 else 7) :=
  have hpix : word32_pixels (run_pair.heap 1) := by
    intro col row _
    show fits_word32 (if col = row then 1 else 0)
    unfold fits_word32
    split <;> omega
  ⟨rfl, rfl, rfl, rfl, hpix, by decide,
    render_full_overlap run_pair 0 1 2 2 9 7 1 1 rfl rfl rfl rfl hpix (by decide) (by decide)⟩


/-! ## The worked examples -/

/-- C8.  With a 4×4 `source` whose only non-zero pixel is `(2,2) = 1`, a 2×2 `dest`,
`x = y = -2`, `fg = 9` and `bg` omitted: `render` returns and leaves `dest` equal to
`[[9,0],[0,0]]`; the eight calls are, in order, the read of source pixel `(2+a, 2+b)` followed
by the write of destination pixel `(a, b)`, so destination pixel `(0,0)` is computed from
source pixel `(2,2)`.  (The old contents of `dest` do not matter: all four pixels are
written.) -/
theorem render_dot_example (r : Run) (dest source : Nat)
    (hsw : (r.heap source).width = 4) (hsh : (r.heap source).height = 4)
    (hsrc : ∀ c w : Int, in_bounds (r.heap source) c w →
      (r.heap source).buf c w = if c = 2 ∧ w = 2 then 1 else 0)
    (hdw : (r.heap dest).width = 2) (hdh : (r.heap dest).height = 2) :
    (render5 r dest source (-2) (-2) 9).1 = .ok .mp_const_none ∧
      rows_of ((render5 r dest source (-2) (-2) 9).2.heap dest) = [[9, 0], [0, 0]] ∧
      issued r (render5 r dest source (-2) (-2) 9) =
        [.get source 2 2, .set dest 0 0 9, .get source 3 2, .set dest 1 0 0,
         .get source 2 3, .set dest 0 1 0, .get source 3 3, .set dest 1 1 0] := by
  have hsep : dest ≠ source := by
    intro h
    rw [h, hsw] at hdw
    omega
  have h22 : (r.heap source).buf 2 2 = 1 := by
    rw [hsrc 2 2 (by unfold in_bounds; rw [hsw, hsh]; omega)]; simp
  have h32 : (r.heap source).buf 3 2 = 0 := by
    rw [hsrc 3 2 (by unfold in_bounds; rw [hsw, hsh]; omega)]; simp
  have h23 : (r.heap source).buf 2 3 = 0 := by
    rw [hsrc 2 3 (by unfold in_bounds; rw [hsw, hsh]; omega)]; simp
  have h33 : (r.heap source).buf 3 3 = 0 := by
    rw [hsrc 3 3 (by unfold in_bounds; rw [hsw, hsh]; omega)]; simp
  rw [render5_eq_body, framebuf_render_body_sep dest source hsep]
  refine ⟨rfl, ?_, ?_⟩
  · simp [rows_of, hdw, hdh, hsw, hsh, List.range_succ, clip_buf, pixel_colour_one, pixel_colour_zero,
      h22, h32, h23, h33]
  · rw [issued_eq r _ _ rfl]
    simp [render_calls, early_exit, hdw, hdh, hsw, hsh, MAX, MIN, rect_calls, row_calls,
      pixel_colour_one, pixel_colour_zero, h22, h32, h23, h33]

/-- Witness of C8: the example state with the single dot. -/
theorem render_dot_example_witness :
    (run_dot.heap 1).width = 4 ∧ (run_dot.heap 1).height = 4 ∧
    (run_dot.heap 0).width = 2 ∧ (run_dot.heap 0).height = 2 ∧
    ((render5 run_dot 0 1 (-2) (-2) 9).1 = .ok .mp_const_none ∧
      rows_of ((render5 run_dot 0 1 (-2) (-2) 9).2.heap 0) = [[9, 0], [0, 0]] ∧
      issued run_dot (render5 run_dot 0 1 (-2) (-2) 9) =
        [.get 1 2 2, .set 0 0 0 9, .get 1 3 2, .set 0 1 0 0,
         .get 1 2 3, .set 0 0 1 0, .get 1 3 3, .set 0 1 1 0]) :=
  ⟨rfl, rfl, rfl, rfl,
    render_dot_example run_dot 0 1 rfl rfl (fun _ _ _ => rfl) rfl rfl⟩

/-- Counterexample to C9 as stated: with the 4×4 all-ones source, the 2×2 all-zero
destination, `x = y = -2` and `fg = 9`, the destination ends as `[[9,9],[9,9]]`, not as
`[[9,0],[0,0]]`: the other three pixels do become 9. -/
theorem render_ones_not_single_pixel :
    rows_of ((render5 run_ones 0 1 (-2) (-2) 9).2.heap 0) = [[9, 9], [9, 9]] ∧
      rows_of ((render5 run_ones 0 1 (-2) (-2) 9).2.heap 0) ≠ [[9, 0], [0, 0]] := by
  have h : rows_of ((render5 run_ones 0 1 (-2) (-2) 9).2.heap 0) = [[9, 9], [9, 9]] := by
    rw [render5_eq_body, framebuf_render_body_sep 0 1 (by decide)]
    simp [rows_of, run_ones, mk_framebuf, List.range_succ, clip_buf, pixel_colour_one]
  rw [h]
  exact ⟨rfl, by decide⟩

/-- C9, amended.  With a 4×4 all-ones `source`, a 2×2 `dest`, `x = y = -2` and `fg = 9`
(`bg` omitted): `render` returns and all four destination pixels are updated to 9, the
destination pixel `(a, b)` being written right after the read of source pixel `(2+a, 2+b)`. -/
theorem render_ones_example (r : Run) (dest source : Nat)
    (hsw : (r.heap source).width = 4) (hsh : (r.heap source).height = 4)
    (hsrc : ∀ c w : Int, in_bounds (r.heap source) c w → (r.heap source).buf c w = 1)
    (hdw : (r.heap dest).width = 2) (hdh : (r.heap dest).height = 2) :
    (render5 r dest source (-2) (-2) 9).1 = .ok .mp_const_none ∧
      rows_of ((render5 r dest source (-2) (-2) 9).2.heap dest) = [[9, 9], [9, 9]] ∧
      issued r (render5 r dest source (-2) (-2) 9) =
        [.get source 2 2, .set dest 0 0 9, .get source 3 2, .set dest 1 0 9,
         .get source 2 3, .set dest 0 1 9, .get source 3 3, .set dest 1 1 9] := by
  have hsep : dest ≠ source := by
    intro h
    rw [h, hsw] at hdw
    omega
  have h22 : (r.heap source).buf 2 2 = 1 :=
    hsrc 2 2 (by unfold in_bounds; rw [hsw, hsh]; omega)
  have h32 : (r.heap source).buf 3 2 = 1 :=
    hsrc 3 2 (by unfold in_bounds; rw [hsw, hsh]; omega)
  have h23 : (r.heap source).buf 2 3 = 1 :=
    hsrc 2 3 (by unfold in_bounds; rw [hsw, hsh]; omega)
  have h33 : (r.heap source).buf 3 3 = 1 :=
    hsrc 3 3 (by unfold in_bounds; rw [hsw, hsh]; omega)
  rw [render5_eq_body, framebuf_render_body_sep dest source hsep]
  refine ⟨rfl, ?_, ?_⟩
  · simp [rows_of, hdw, hdh, hsw, hsh, List.range_succ, clip_buf, pixel_colour_one, pixel_colour_zero,
      h22, h32, h23, h33]
  · rw [issued_eq r _ _ rfl]
    simp [render_calls, early_exit, hdw, hdh, hsw, hsh, MAX, MIN, rect_calls, row_calls,
      pixel_colour_one, pixel_colour_zero, h22, h32, h23, h33]

/-- Witness of C9 as amended: the example state with the all-ones source. -/
theorem render_ones_example_witness :
    (run_ones.heap 1).width = 4 ∧ (run_ones.heap 1).height = 4 ∧
    (run_ones.heap 0).width = 2 ∧ (run_ones.heap 0).height = 2 ∧
    ((render5 run_ones 0 1 (-2) (-2) 9).1 = .ok .mp_const_none ∧
      rows_of ((render5 run_ones 0 1 (-2) (-2) 9).2.heap 0) = [[9, 9], [9, 9]] ∧
      issued run_ones (render5 run_ones 0 1 (-2) (-2) 9) =
        [.get 1 2 2, .set 0 0 0 9, .get 1 3 2, .set 0 1 0 9,
         .get 1 2 3, .set 0 0 1 9, .get 1 3 3, .set 0 1 1 9]) :=
  ⟨rfl, rfl, rfl, rfl,
    render_ones_example run_ones 0 1 rfl rfl (fun _ _ _ => rfl) rfl rfl⟩


/-! ## The type check -/

/-- C5.  For calls with 5 or 6 arguments whose `x`, `y`, `fg` (and `bg`) are integers:
`render` raises a type error exactly when `dest` or `source` is not an instance of (a subclass
of) the framebuffer type, and it returns `None` when both are.  For every argument list
whatever: whenever `render` raises, the state is the one before the call, so no pixel call
has been issued and no surface is modified. -/
theorem render_type_check (r : Run) (a0 a1 : mp_obj_t) (x y fg bg : Int) :
    type_check_contract r a0 a1
        (framebuf_render_obj r [a0, a1, .small_int x, .small_int y, .small_int fg]) ∧
      type_check_contract r a0 a1
        (framebuf_render_obj r [a0, a1, .small_int x, .small_int y, .small_int fg, .small_int bg]) ∧
      ∀ (args : List mp_obj_t) (e : mp_exc),
        (framebuf_render_obj r args).1 = .error e →
          (framebuf_render_obj r args).2 = r ∧ issued r (framebuf_render_obj r args) = [] := by
  refine ⟨?_, ?_, ?_⟩
  · apply type_check_contract_of_ints
    · rintro d s rfl rfl
      exact ⟨x, y, fg, 0, by
        simp [framebuf_render_obj, framebuf_render, mp_obj_cast_to_native_base, mp_obj_get_int]⟩
    · intro h
      cases a0 <;>
        simp_all [framebuf_render_obj, framebuf_render, mp_obj_cast_to_native_base]
    · intro h
      cases a1 <;> cases a0 <;>
        simp_all [framebuf_render_obj, framebuf_render, mp_obj_cast_to_native_base]
  · apply type_check_contract_of_ints
    · rintro d s rfl rfl
      exact ⟨x, y, fg, bg, by
        simp [framebuf_render_obj, framebuf_render, mp_obj_cast_to_native_base, mp_obj_get_int]⟩
    · intro h
      cases a0 <;>
        simp_all [framebuf_render_obj, framebuf_render, mp_obj_cast_to_native_base]
    · intro h
      cases a1 <;> cases a0 <;>
        simp_all [framebuf_render_obj, framebuf_render, mp_obj_cast_to_native_base]
  · intro args e he
    have h := framebuf_render_obj_raise_unchanged r args e he
    refine ⟨h, ?_⟩
    unfold issued
    rw [h]
    simp


/-! ## Repetition -/

/-- C11.  For separate surfaces `dest` and `source` and every `x`, `y`, `fg`, `bg`: calling
`render` a second time with the same arguments, on the state the first call left, returns
and leaves every surface (in particular `dest`) as the first call left it. -/
theorem render_twice (r : Run) (dest source : Nat) (x y fg bg : Int) (hsep : dest ≠ source) :
    (render (render r dest source x y fg bg).2 dest source x y fg bg).1 = .ok .mp_const_none ∧
      (render (render r dest source x y fg bg).2 dest source x y fg bg).2.heap =
        (render r dest source x y fg bg).2.heap := by
  have hsd : source ≠ dest := Ne.symm hsep
  rw [render_eq_body, render_eq_body, framebuf_render_body_sep dest source hsep,
    framebuf_render_body_sep dest source hsep]
  refine ⟨rfl, ?_⟩
  simp only [Function.update_same, Function.update_noteq hsd, Function.update_idem]
  refine congrArg _ ?_
  refine fb_ext ?_ rfl rfl rfl rfl
  funext i j
  simp only [clip_buf]
  split <;> rfl

/-- Witness of C11: the 4×4 all-ones source placed at `(1, 1)` on the 2×2 destination. -/
theorem render_twice_witness :
    (0 : Nat) ≠ 1 ∧
      ((render (render run_ones 0 1 1 1 9 7).2 0 1 1 1 9 7).1 = .ok .mp_const_none ∧
        (render (render run_ones 0 1 1 1 9 7).2 0 1 1 1 9 7).2.heap =
          (render run_ones 0 1 1 1 9 7).2.heap) :=
  ⟨by decide, render_twice run_ones 0 1 1 1 9 7 (by decide)⟩


/-! ## A surface rendered onto itself -/

theorem framebuf_render_cols_alias (d : Nat) (fg bg x0end y0 y1 : Int) :
    ∀ (n : Nat) (cx0 cx1 : Int) (r : Run),
      (x0end - cx0).toNat = n → (y1 ≠ y0 ∨ cx0 ≤ cx1) →
      0 ≤ y0 → y0 < (r.heap d).height → 0 ≤ y1 → y1 < (r.heap d).height →
      0 ≤ cx0 → x0end ≤ (r.heap d).width → 0 ≤ cx1 →
      (cx0 < x0end → cx1 + (x0end - cx0) ≤ (r.heap d).width) →
      ∃ r1, framebuf_render_cols d d fg bg x0end y0 y1 cx0 cx1 r = (.ok (), r1) ∧
        r1.heap = Function.update r.heap d
          { r.heap d with buf := row_buf (r.heap d) (r.heap d) fg bg x0end y0 y1 cx0 cx1 } := by
  intro n
  induction n with
  | zero =>
    intro cx0 cx1 r hn _ _ _ _ _ _ _ _ _
    have hge : ¬ cx0 < x0end := by omega
    rw [framebuf_render_cols]
    simp only [hge, if_false]
    refine ⟨r, rfl, ?_⟩
    symm
    rw [Function.update_eq_self_iff]
    refine fb_ext ?_ rfl rfl rfl rfl
    funext i j
    simp only [row_buf]
    rw [if_neg]
    omega
  | succ n ih =>
    intro cx0 cx1 r hn hord hy0 hy0h hy1 hy1h hcx0 hx0end hcx1 hsw
    have hlt : cx0 < x0end := by omega
    have hsw2 := hsw hlt
    rw [framebuf_render_cols]
    have hget : in_bounds (r.heap d) cx1 y1 := ⟨hcx1, by omega, hy1, hy1h⟩
    have hset : in_bounds (r.heap d) cx0 y0 := ⟨hcx0, by omega, hy0, hy0h⟩
    simp only [hlt, if_true, get_pixel, hget, set_pixel, hset]
    obtain ⟨r1, h1, h2⟩ := ih (cx0 + 1) (cx1 + 1)
      { heap := Function.update r.heap d (store (r.heap d) cx0 y0
          (if uint32_t ((r.heap d).buf cx1 y1) = 0 then bg else fg)),
        calls := r.calls ++ [PixelCall.get d cx1 y1] ++ [PixelCall.set d cx0 y0
          (if uint32_t ((r.heap d).buf cx1 y1) = 0 then bg else fg)] }
      (by omega) (by omega) hy0 (by simpa [store] using hy0h) hy1 (by simpa [store] using hy1h)
      (by omega) (by simpa [store] using hx0end) (by omega)
      (by intro _; simp only [Function.update_same, store]; omega)
    refine ⟨r1, h1, ?_⟩
    rw [h2]
    simp only [Function.update_same, Function.update_idem]
    refine congrArg _ ?_
    refine fb_ext ?_ rfl rfl rfl rfl
    funext i j
    simp only [store, row_buf, pixel_colour]
    by_cases h1 : j = y0 ∧ cx0 + 1 ≤ i ∧ i < x0end
    · have h1' : j = y0 ∧ cx0 ≤ i ∧ i < x0end := by omega
      have e1 : cx1 + 1 + (i - (cx0 + 1)) = cx1 + (i - cx0) := by omega
      have h3 : ¬ (cx1 + (i - cx0) = cx0 ∧ y1 = y0) := by omega
      rw [if_pos h1, if_pos h1']
      simp only [e1, if_neg h3]
    · rw [if_neg h1]
      by_cases h2 : i = cx0 ∧ j = y0
      · have h2' : j = y0 ∧ cx0 ≤ i ∧ i < x0end := by omega
        have e2 : cx1 + (i - cx0) = cx1 := by omega
        rw [if_pos h2, if_pos h2', e2]
      · have h2' : ¬ (j = y0 ∧ cx0 ≤ i ∧ i < x0end) := by omega
        rw [if_neg h2, if_neg h2']

theorem framebuf_render_rows_alias (d : Nat) (fg bg x0 x1 x0end y0end : Int) :
    ∀ (m : Nat) (y0 y1 : Int) (r : Run),
      (y0end - y0).toNat = m → (y0 < y1 ∨ (y0 = y1 ∧ x0 ≤ x1)) →
      0 ≤ x0 → x0end ≤ (r.heap d).width → 0 ≤ x1 →
      (x0 < x0end → x1 + (x0end - x0) ≤ (r.heap d).width) →
      0 ≤ y0 → y0end ≤ (r.heap d).height → 0 ≤ y1 →
      (y0 < y0end → y1 + (y0end - y0) ≤ (r.heap d).height) →
      ∃ r1, framebuf_render_rows d d fg bg x0 x1 x0end y0end y0 y1 r = (.ok (), r1) ∧
        r1.heap = Function.update r.heap d
          { r.heap d with buf := rect_buf (r.heap d) (r.heap d) fg bg x0 x1 x0end y0end y0 y1 } := by
  intro m
  induction m with
  | zero =>
    intro y0 y1 r hm _ _ _ _ _ _ _ _ _
    have hge : ¬ y0 < y0end := by omega
    rw [framebuf_render_rows]
    simp only [hge, if_false]
    refine ⟨r, rfl, ?_⟩
    symm
    rw [Function.update_eq_self_iff]
    refine fb_ext ?_ rfl rfl rfl rfl
    funext i j
    simp only [rect_buf]
    rw [if_neg]
    omega
  | succ m ih =>
    intro y0 y1 r hm hord hx0 hx0end hx1 hsw hy0 hy0end hy1 hsh
    have hlt : y0 < y0end := by omega
    have hsh2 := hsh hlt
    rw [framebuf_render_rows]
    simp only [hlt, if_true]
    obtain ⟨r1, h1, h2⟩ := framebuf_render_cols_alias d fg bg x0end y0 y1 (x0end - x0).toNat x0 x1 r
      rfl (by omega) hy0 (by omega) hy1 (by omega) hx0 hx0end hx1 hsw
    rw [h1]
    simp only
    obtain ⟨r2, g1, g2⟩ := ih (y0 + 1) (y1 + 1) r1 (by omega) (by omega) hx0
      (by rw [h2]; simpa using hx0end) hx1 (by rw [h2]; simpa using hsw) (by omega)
      (by rw [h2]; simpa using hy0end) (by omega)
      (by intro _; rw [h2]; simp only [Function.update_same]; omega)
    refine ⟨r2, g1, ?_⟩
    rw [g2, h2]
    simp only [Function.update_same, Function.update_idem]
    refine congrArg _ ?_
    refine fb_ext ?_ rfl rfl rfl rfl
    funext i j
    simp only [rect_buf, row_buf]
    by_cases h1 : y0 + 1 ≤ j ∧ j < y0end ∧ x0 ≤ i ∧ i < x0end
    · have h1' : y0 ≤ j ∧ j < y0end ∧ x0 ≤ i ∧ i < x0end := by omega
      have e1 : y1 + 1 + (j - (y0 + 1)) = y1 + (j - y0) := by omega
      have h3 : ¬ (y1 + (j - y0) = y0 ∧ x0 ≤ x1 + (i - x0) ∧
          x1 + (i - x0) < x0end) := by omega
      rw [if_pos h1, if_pos h1']
      simp only [e1, if_neg h3]
    · rw [if_neg h1]
      by_cases h2 : j = y0 ∧ x0 ≤ i ∧ i < x0end
      · have h2' : y0 ≤ j ∧ j < y0end ∧ x0 ≤ i ∧ i < x0end := by omega
        have e2 : y1 + (j - y0) = y1 := by omega
        rw [if_pos h2, if_pos h2', e2]
      · have h2' : ¬ (y0 ≤ j ∧ j < y0end ∧ x0 ≤ i ∧ i < x0end) := by omega
        rw [if_neg h2, if_neg h2']

theorem framebuf_render_body_alias (d : Nat) (x y fg bg : Int) (r : Run)
    (hoff : y < 0 ∨ (y = 0 ∧ x ≤ 0)) :
    ∃ r1, framebuf_render_body d d x y fg bg r = (.ok .mp_const_none, r1) ∧
      r1.heap = Function.update r.heap d
        { r.heap d with buf := clip_buf (r.heap d) (r.heap d) x y fg bg } := by
  unfold framebuf_render_body
  by_cases he : early_exit (r.heap d) (r.heap d) x y
  · simp only [he, if_true]
    refine ⟨r, rfl, ?_⟩
    unfold early_exit at he
    symm
    rw [Function.update_eq_self_iff]
    refine fb_ext ?_ rfl rfl rfl rfl
    funext i j
    simp only [clip_buf]
    rw [if_neg]
    omega
  · simp only [he, if_false]
    unfold early_exit at he
    obtain ⟨r1, h1, h2⟩ := framebuf_render_rows_alias d fg bg (MAX 0 x) (MAX 0 (-x))
      (MIN (r.heap d).width (x + (r.heap d).width))
      (MIN (r.heap d).height (y + (r.heap d).height)) _ (MAX 0 y) (MAX 0 (-y)) r rfl
      (by simp only [MAX_eq_max]; omega)
      (by simp only [MAX_eq_max]; omega) (by simp only [MIN_eq_min]; omega)
      (by simp only [MAX_eq_max]; omega) (by simp only [MAX_eq_max, MIN_eq_min]; omega)
      (by simp only [MAX_eq_max]; omega) (by simp only [MIN_eq_min]; omega)
      (by simp only [MAX_eq_max]; omega) (by simp only [MAX_eq_max, MIN_eq_min]; omega)
    rw [h1]
    refine ⟨r1, rfl, ?_⟩
    rw [h2]
    refine congrArg _ ?_
    refine fb_ext ?_ rfl rfl rfl rfl
    funext i j
    simp only [rect_buf, clip_buf, MAX_eq_max, MIN_eq_min]
    by_cases h1 : max 0 y ≤ j ∧ j < min ((r.heap d).height : Int) (y + (r.heap d).height) ∧
        max 0 x ≤ i ∧ i < min ((r.heap d).width : Int) (x + (r.heap d).width)
    · have h1' : max 0 x ≤ i ∧ i < min ((r.heap d).width : Int) (x + (r.heap d).width) ∧
          max 0 y ≤ j ∧ j < min ((r.heap d).height : Int) (y + (r.heap d).height) := by omega
      have e1 : max 0 (-x) + (i - max 0 x) = i - x := by omega
      have e2 : max 0 (-y) + (j - max 0 y) = j - y := by omega
      rw [if_pos h1, if_pos h1', e1, e2]
    · have h1' : ¬ (max 0 x ≤ i ∧ i < min ((r.heap d).width : Int) (x + (r.heap d).width) ∧
          max 0 y ≤ j ∧ j < min ((r.heap d).height : Int) (y + (r.heap d).height)) := by omega
      rw [if_neg h1, if_neg h1']


theorem render_strip_alias_eval :
    render run_strip 0 0 1 0 9 0 =
      (.ok .mp_const_none,
        { heap := Function.update run_strip.heap 0
            (mk_framebuf 3 1 (fun c w => if c = 2 ∧ w = 0 then 9 else
              if c = 1 ∧ w = 0 then 9 else if c = 0 then 1 else 0)),
          calls := [.get 0 0 0, .set 0 1 0 9, .get 0 1 0, .set 0 2 0 9] }) := by
  rw [render_eq_body]
  unfold framebuf_render_body
  have he : ¬ early_exit (run_strip.heap 0) (run_strip.heap 0) 1 0 := by decide
  simp only [he, if_false]
  have h0 : MAX 0 (1 : Int) = 1 := by decide
  have h1 : MAX 0 (-(1 : Int)) = 0 := by decide
  have h2 : MAX 0 (0 : Int) = 0 := by decide
  have h3 : MAX 0 (-(0 : Int)) = 0 := by decide
  have h4 : MIN ((run_strip.heap 0).width : Int) (1 + (run_strip.heap 0).width) = 3 := by decide
  have h5 : MIN ((run_strip.heap 0).height : Int) (0 + (run_strip.heap 0).height) = 1 := by decide
  rw [h0, h1, h2, h3, h4, h5]
  simp [framebuf_render_rows, framebuf_render_cols, get_pixel, set_pixel, in_bounds, run_strip,
    mk_framebuf, store, uint32_t, Function.update]

theorem row_addrs_ordered (d : Nat) (y0 y1 : Int) :
    ∀ (n : Nat) (cx0 cx1 : Int), (y1 ≠ y0 ∨ cx0 ≤ cx1) →
      (row_addrs d d y0 y1 n cx0 cx1).Pairwise
        (fun a b => ¬ (a.1 = true ∧ b.1 = false ∧ a.2 = b.2)) := by
  intro n
  induction n with
  | zero => intro cx0 cx1 _; simp [row_addrs]
  | succ n ih =>
    intro cx0 cx1 hord
    simp only [row_addrs, List.pairwise_cons]
    refine ⟨?_, ?_, ih (cx0 + 1) (cx1 + 1) (by omega)⟩
    · intro a _ h
      exact absurd h.1 (by decide)
    · intro a ha h
      obtain ⟨k, hk0, _, hk⟩ := mem_row_addrs d d y0 y1 n (cx0 + 1) (cx1 + 1) a ha
      rcases hk with hk | hk
      · rw [hk] at h
        have h2 := h.2.2
        simp only [Prod.mk.injEq, true_and] at h2
        omega
      · rw [hk] at h
        exact absurd h.2.1 (by simp)

theorem rect_addrs_ordered (d : Nat) (x0 x1 x0end : Int) :
    ∀ (m : Nat) (y0 y1 : Int), (y0 < y1 ∨ (y0 = y1 ∧ x0 ≤ x1)) →
      (rect_addrs d d x0 x1 x0end m y0 y1).Pairwise
        (fun a b => ¬ (a.1 = true ∧ b.1 = false ∧ a.2 = b.2)) := by
  intro m
  induction m with
  | zero => intro y0 y1 _; simp [rect_addrs]
  | succ m ih =>
    intro y0 y1 hord
    simp only [rect_addrs, List.pairwise_append]
    refine ⟨row_addrs_ordered d y0 y1 _ x0 x1 (by omega), ih (y0 + 1) (y1 + 1) (by omega), ?_⟩
    intro a ha b hb h
    obtain ⟨k, _, _, hk⟩ := mem_row_addrs d d y0 y1 _ x0 x1 a ha
    obtain ⟨l, k2, hl0, _, _, _, hb2⟩ := mem_rect_addrs d d x0 x1 x0end m (y0 + 1) (y1 + 1) b hb
    rcases hk with hk | hk
    · rw [hk] at h
      exact absurd h.1 (by simp)
    · rcases hb2 with hb2 | hb2
      · rw [hk, hb2] at h
        have h2 := h.2.2
        simp only [Prod.mk.injEq, true_and] at h2
        omega
      · rw [hb2] at h
        exact absurd h.2.1 (by simp)

theorem render_alias_ordered (r : Run) (s : Nat) (x y fg bg : Int)
    (hoff : y < 0 ∨ (y = 0 ∧ x ≤ 0)) :
    no_read_after_write (issued r (render r s s x y fg bg)) := by
  obtain ⟨r1, new, h1, _, h3, h4⟩ := framebuf_render_body_any s s x y fg bg r
  rw [render_eq_body, h1, issued_eq r _ new h3]
  have hp : (new.map PixelCall.addr).Pairwise
      (fun a b => ¬ (a.1 = true ∧ b.1 = false ∧ a.2 = b.2)) := by
    rw [h4]
    unfold render_addrs
    split
    · exact List.Pairwise.nil
    · apply rect_addrs_ordered
      simp only [MAX_eq_max]
      omega
  rw [List.pairwise_map] at hp
  unfold no_read_after_write
  refine hp.imp ?_
  intro a b hab p col row colour ha hb
  apply hab
  rw [ha, hb]
  exact ⟨rfl, rfl, rfl⟩

/-- Counterexample to C12 as stated: on the 3×1 surface `[1, 0, 0]` rendered onto itself at
`x = 1`, `y = 0` with `fg = 9`, `bg = 0`, pixel `(1, 0)` is written and then read, and the
surface ends as `[1, 9, 9]`, whereas rendering onto it from an unmodified copy gives
`[1, 9, 0]`. -/
theorem render_alias_corrupts :
    run_strip.heap 1 = run_strip.heap 0 ∧
      rows_of ((render run_strip 0 0 1 0 9 0).2.heap 0) = [[1, 9, 9]] ∧
      rows_of ((render run_strip 0 1 1 0 9 0).2.heap 0) = [[1, 9, 0]] ∧
      issued run_strip (render run_strip 0 0 1 0 9 0) =
        [.get 0 0 0, .set 0 1 0 9, .get 0 1 0, .set 0 2 0 9] ∧
      ¬ no_read_after_write (issued run_strip (render run_strip 0 0 1 0 9 0)) := by
  have hi : issued run_strip (render run_strip 0 0 1 0 9 0) =
      [.get 0 0 0, .set 0 1 0 9, .get 0 1 0, .set 0 2 0 9] := by
    rw [render_strip_alias_eval]
    rfl
  refine ⟨rfl, ?_, ?_, hi, ?_⟩
  · rw [render_strip_alias_eval]
    simp [rows_of, mk_framebuf, List.range_succ]
  · rw [render_eq_body, framebuf_render_body_sep 0 1 (by decide)]
    simp [rows_of, run_strip, mk_framebuf, List.range_succ, clip_buf, pixel_colour_one,
      pixel_colour_zero]
  · rw [hi]
    unfold no_read_after_write
    intro h
    simp only [List.pairwise_cons] at h
    exact h.2.1 _ (List.mem_cons_self _ _) 0 1 0 9 rfl rfl

/-- C12, amended.  When `dest` and `source` are the same surface `s` and the offset has
`y < 0`, or `y = 0` and `x ≤ 0` (every pixel is read no later, in row-major order, than it is
written): `render(s, s, x, y, fg, bg)` returns, no pixel of `s` is read after it has been
written, and `s` ends equal to the result of rendering onto `s` from an unmodified copy `c`
of `s` taken before the call. -/
theorem render_alias_safe (r : Run) (s c : Nat) (x y fg bg : Int)
    (hc : c ≠ s) (hcopy : r.heap c = r.heap s) (hoff : y < 0 ∨ (y = 0 ∧ x ≤ 0)) :
    (render r s s x y fg bg).1 = .ok .mp_const_none ∧
      no_read_after_write (issued r (render r s s x y fg bg)) ∧
      (render r s s x y fg bg).2.heap s = (render r s c x y fg bg).2.heap s := by
  refine ⟨?_, render_alias_ordered r s x y fg bg hoff, ?_⟩
  · rw [render_eq_body]
    exact framebuf_render_body_ok s s x y fg bg r
  · obtain ⟨r1, h1, h2⟩ := framebuf_render_body_alias s x y fg bg r hoff
    rw [render_eq_body, render_eq_body, h1, framebuf_render_body_sep s c (Ne.symm hc)]
    simp only [h2, Function.update_same, hcopy]

/-- Witness of C12 as amended: the 3×1 surface `[1, 0, 0]` rendered onto itself at `x = -1`,
`y = 0`, with the copy at address 1. -/
theorem render_alias_safe_witness :
    (1 : Nat) ≠ 0 ∧ run_strip.heap 1 = run_strip.heap 0 ∧
      ((0 : Int) < 0 ∨ ((0 : Int) = 0 ∧ (-1 : Int) ≤ 0)) ∧
      ((render run_strip 0 0 (-1) 0 9 0).1 = .ok .mp_const_none ∧
        no_read_after_write (issued run_strip (render run_strip 0 0 (-1) 0 9 0)) ∧
        (render run_strip 0 0 (-1) 0 9 0).2.heap 0 = (render run_strip 0 1 (-1) 0 9 0).2.heap 0) :=
  ⟨by decide, rfl, by decide,
    render_alias_safe run_strip 0 1 (-1) 0 9 0 (by decide) rfl (by decide)⟩


/-! ## The order and the number of the calls -/

theorem row_addrs_eq_flatMap (d s : Nat) (y0 y1 : Int) :
    ∀ (n : Nat) (cx0 cx1 : Int),
      row_addrs d s y0 y1 n cx0 cx1 =
        (List.range n).flatMap fun k =>
          [(false, s, cx1 + (k : Int), y1), (true, d, cx0 + (k : Int), y0)] := by
  intro n
  induction n with
  | zero => intro cx0 cx1; simp [row_addrs]
  | succ n ih =>
    intro cx0 cx1
    rw [row_addrs, ih, List.range_succ_eq_map, List.flatMap_cons, List.flatMap_map]
    simp only [Nat.cast_zero, add_zero, List.cons_append, List.nil_append, List.cons.injEq,
      true_and]
    apply List.flatMap_congr
    intro k _
    have e1 : cx1 + 1 + (k : Int) = cx1 + ((Nat.succ k : Nat) : Int) := by push_cast; omega
    have e2 : cx0 + 1 + (k : Int) = cx0 + ((Nat.succ k : Nat) : Int) := by push_cast; omega
    rw [e1, e2]

theorem rect_addrs_eq_flatMap (d s : Nat) (x0 x1 x0end : Int) :
    ∀ (m : Nat) (y0 y1 : Int),
      rect_addrs d s x0 x1 x0end m y0 y1 =
        (List.range m).flatMap fun l =>
          (List.range (x0end - x0).toNat).flatMap fun k =>
            [(false, s, x1 + (k : Int), y1 + (l : Int)), (true, d, x0 + (k : Int), y0 + (l : Int))] := by
  intro m
  induction m with
  | zero => intro y0 y1; simp [rect_addrs]
  | succ m ih =>
    intro y0 y1
    rw [rect_addrs, ih, row_addrs_eq_flatMap, List.range_succ_eq_map, List.flatMap_cons,
      List.flatMap_map]
    simp only [Nat.cast_zero, add_zero]
    congr 1
    apply List.flatMap_congr
    intro l _
    have e1 : y1 + 1 + (l : Int) = y1 + ((Nat.succ l : Nat) : Int) := by push_cast; omega
    have e2 : y0 + 1 + (l : Int) = y0 + ((Nat.succ l : Nat) : Int) := by push_cast; omega
    rw [e1, e2]

theorem render_addrs_eq_row_major (d s : Nat) (src dst : mp_obj_framebuf_t) (x y : Int) :
    render_addrs d s src dst x y =
      (row_major (dest_x_start x) (dest_x_end dst src x) (dest_y_start y)
        (dest_y_end dst src y)).flatMap (pixel_step d s x y) := by
  unfold render_addrs row_major dest_x_start dest_x_end dest_y_start dest_y_end
  rw [List.flatMap_assoc]
  by_cases he : early_exit dst src x y
  · simp only [he, if_true]
    unfold early_exit at he
    have h0 : (min (dst.width : Int) (x + src.width) - max 0 x).toNat = 0 ∨
        (min (dst.height : Int) (y + src.height) - max 0 y).toNat = 0 := by omega
    rcases h0 with h0 | h0
    · rw [h0]; simp
    · rw [h0]; simp
  · simp only [he, if_false]
    rw [rect_addrs_eq_flatMap]
    simp only [MAX_eq_max, MIN_eq_min]
    apply List.flatMap_congr
    intro l _
    rw [List.flatMap_map (fun k : Nat => (max 0 x + (k : Int), max 0 y + (l : Int)))
      (pixel_step d s x y)]
    apply List.flatMap_congr
    intro k _
    simp only [pixel_step]
    have e1 : max 0 (-x) + (k : Int) = max 0 x + (k : Int) - x := by omega
    have e2 : max 0 (-y) + (l : Int) = max 0 y + (l : Int) - y := by omega
    rw [e1, e2]


theorem set_coords_of_addr (l : List PixelCall) :
    set_coords l = (l.map PixelCall.addr).filterMap
      (fun a => if a.1 then some (a.2.2.1, a.2.2.2) else none) := by
  induction l with
  | nil => rfl
  | cons c l ih =>
    cases c with
    | get p col row => simp [set_coords, PixelCall.addr, ih]
    | set p col row colour => simp [set_coords, PixelCall.addr, ih]

theorem get_coords_of_addr (l : List PixelCall) :
    get_coords l = (l.map PixelCall.addr).filterMap
      (fun a => if a.1 then none else some (a.2.2.1, a.2.2.2)) := by
  induction l with
  | nil => rfl
  | cons c l ih =>
    cases c with
    | get p col row => simp [get_coords, PixelCall.addr, ih]
    | set p col row colour => simp [get_coords, PixelCall.addr, ih]

theorem row_major_length (xs xe ys ye : Int) :
    (row_major xs xe ys ye).length = (ye - ys).toNat * (xe - xs).toNat := by
  unfold row_major
  generalize (ye - ys).toNat = m
  induction m with
  | zero => simp
  | succ m ih =>
    rw [List.range_succ, List.flatMap_append, List.length_append, ih]
    simp [Nat.succ_mul]

theorem row_major_nodup (xs xe ys ye : Int) : (row_major xs xe ys ye).Nodup := by
  unfold row_major
  rw [List.nodup_flatMap]
  constructor
  · intro l _
    apply List.Nodup.map _ (List.nodup_range _)
    intro a b hab
    simp only [Prod.mk.injEq, and_true] at hab
    omega
  · have hp : (List.range (ye - ys).toNat).Pairwise (· ≠ ·) := List.nodup_range _
    refine hp.imp ?_
    intro a b hab
    simp only [Function.onFun]
    intro p ha hb
    simp only [List.mem_map] at ha hb
    obtain ⟨k1, _, h1⟩ := ha
    obtain ⟨k2, _, h2⟩ := hb
    rw [← h2] at h1
    simp only [Prod.mk.injEq] at h1
    omega

theorem render_issued_addrs (r : Run) (dest source : Nat) (x y fg bg : Int) :
    (issued r (render r dest source x y fg bg)).map PixelCall.addr =
      (row_major (dest_x_start x) (dest_x_end (r.heap dest) (r.heap source) x) (dest_y_start y)
        (dest_y_end (r.heap dest) (r.heap source) y)).flatMap (pixel_step dest source x y) := by
  obtain ⟨r1, new, h1, _, h3, h4⟩ := framebuf_render_body_any dest source x y fg bg r
  rw [render_eq_body, h1, issued_eq r _ new h3, h4, render_addrs_eq_row_major]

theorem render_set_coords (r : Run) (dest source : Nat) (x y fg bg : Int) :
    set_coords (issued r (render r dest source x y fg bg)) =
      row_major (dest_x_start x) (dest_x_end (r.heap dest) (r.heap source) x) (dest_y_start y)
        (dest_y_end (r.heap dest) (r.heap source) y) := by
  rw [set_coords_of_addr, render_issued_addrs, List.filterMap_flatMap]
  simp [pixel_step]

theorem render_get_coords (r : Run) (dest source : Nat) (x y fg bg : Int) :
    get_coords (issued r (render r dest source x y fg bg)) =
      (row_major (dest_x_start x) (dest_x_end (r.heap dest) (r.heap source) x) (dest_y_start y)
        (dest_y_end (r.heap dest) (r.heap source) y)).map (fun p => (p.1 - x, p.2 - y)) := by
  rw [get_coords_of_addr, render_issued_addrs, List.filterMap_flatMap]
  simp [pixel_step, List.flatMap_singleton', List.map_eq_flatMap]

/-- C13.  For every `dest`, `source`, `x`, `y` for which the early-exit test is false: the
calls issued are, for each coordinate `(col, row)` of the row-major enumeration of the clipped
rectangle in turn (rows `dest_y_start .. dest_y_end-1` outside, columns
`dest_x_start .. dest_x_end-1` inside), one `get_pixel` on `source` at `(col - x, row - y)`
immediately followed by the `set_pixel` on `dest` at `(col, row)`; so the `set_pixel`
coordinates are exactly that enumeration, no coordinate occurs twice in it, and the number of
writes is `(dest_x_end - dest_x_start) * (dest_y_end - dest_y_start)`. -/
theorem render_row_major (r : Run) (dest source : Nat) (x y fg bg : Int)
    (hne : ¬ early_exit (r.heap dest) (r.heap source) x y) :
    (issued r (render r dest source x y fg bg)).map PixelCall.addr =
        (row_major (dest_x_start x) (dest_x_end (r.heap dest) (r.heap source) x)
          (dest_y_start y) (dest_y_end (r.heap dest) (r.heap source) y)).flatMap
          (pixel_step dest source x y) ∧
      set_coords (issued r (render r dest source x y fg bg)) =
        row_major (dest_x_start x) (dest_x_end (r.heap dest) (r.heap source) x)
          (dest_y_start y) (dest_y_end (r.heap dest) (r.heap source) y) ∧
      (row_major (dest_x_start x) (dest_x_end (r.heap dest) (r.heap source) x)
          (dest_y_start y) (dest_y_end (r.heap dest) (r.heap source) y)).Nodup ∧
      ((set_coords (issued r (render r dest source x y fg bg))).length : Int) =
        (dest_x_end (r.heap dest) (r.heap source) x - dest_x_start x) *
          (dest_y_end (r.heap dest) (r.heap source) y - dest_y_start y) := by
  refine ⟨render_issued_addrs r dest source x y fg bg, render_set_coords r dest source x y fg bg,
    row_major_nodup _ _ _ _, ?_⟩
  rw [render_set_coords, row_major_length]
  unfold early_exit at hne
  have hx : 0 ≤ dest_x_end (r.heap dest) (r.heap source) x - dest_x_start x := by
    unfold dest_x_end dest_x_start; omega
  have hy : 0 ≤ dest_y_end (r.heap dest) (r.heap source) y - dest_y_start y := by
    unfold dest_y_end dest_y_start; omega
  rw [Nat.cast_mul, Int.toNat_of_nonneg hx, Int.toNat_of_nonneg hy, mul_comm]

/-- Witness of C13: the single-dot example, whose clipped rectangle is the whole 2×2
destination. -/
theorem render_row_major_witness :
    ¬ early_exit (run_dot.heap 0) (run_dot.heap 1) (-2) (-2) ∧
    ((issued run_dot (render run_dot 0 1 (-2) (-2) 9 0)).map PixelCall.addr =
        (row_major (dest_x_start (-2)) (dest_x_end (run_dot.heap 0) (run_dot.heap 1) (-2))
          (dest_y_start (-2)) (dest_y_end (run_dot.heap 0) (run_dot.heap 1) (-2))).flatMap
          (pixel_step 0 1 (-2) (-2)) ∧
      set_coords (issued run_dot (render run_dot 0 1 (-2) (-2) 9 0)) =
        row_major (dest_x_start (-2)) (dest_x_end (run_dot.heap 0) (run_dot.heap 1) (-2))
          (dest_y_start (-2)) (dest_y_end (run_dot.heap 0) (run_dot.heap 1) (-2)) ∧
      (row_major (dest_x_start (-2)) (dest_x_end (run_dot.heap 0) (run_dot.heap 1) (-2))
          (dest_y_start (-2)) (dest_y_end (run_dot.heap 0) (run_dot.heap 1) (-2))).Nodup ∧
      ((set_coords (issued run_dot (render run_dot 0 1 (-2) (-2) 9 0))).length : Int) =
        (dest_x_end (run_dot.heap 0) (run_dot.heap 1) (-2) - dest_x_start (-2)) *
          (dest_y_end (run_dot.heap 0) (run_dot.heap 1) (-2) - dest_y_start (-2))) :=
  ⟨by decide, render_row_major run_dot 0 1 (-2) (-2) 9 0 (by decide)⟩


/-! ## The early-exit test against the clipped extents -/

/-- Counterexample to C14 as stated: with a destination of width 0, a 4×4 source and
`x = -1`, `y = 0`, the early-exit test is false although the clipped column extent is 0. -/
theorem early_exit_misses_zero_width :
    ¬ (early_exit (run_flat.heap 0) (run_flat.heap 1) (-1) 0 ↔
        (dest_x_end (run_flat.heap 0) (run_flat.heap 1) (-1) - dest_x_start (-1) ≤ 0 ∨
          dest_y_end (run_flat.heap 0) (run_flat.heap 1) 0 - dest_y_start 0 ≤ 0)) := by
  decide

/-- C14, amended.  For every dimensions of `dest` and `source` (including 0) and every `x`,
`y`: the clipped column extent or the clipped row extent is `≤ 0` exactly when the early-exit
test is true or one of the four dimensions is 0.  So whenever the test is true an extent is
`≤ 0`, and when no dimension is 0 the test is true exactly when an extent is `≤ 0`. -/
theorem early_exit_iff_empty (dst src : mp_obj_framebuf_t) (x y : Int) :
    ((dest_x_end dst src x - dest_x_start x ≤ 0 ∨ dest_y_end dst src y - dest_y_start y ≤ 0) ↔
        (early_exit dst src x y ∨ dst.width = 0 ∨ dst.height = 0 ∨ src.width = 0 ∨
          src.height = 0)) ∧
      (early_exit dst src x y →
        (dest_x_end dst src x - dest_x_start x ≤ 0 ∨
          dest_y_end dst src y - dest_y_start y ≤ 0)) ∧
      (0 < dst.width → 0 < dst.height → 0 < src.width → 0 < src.height →
        (early_exit dst src x y ↔
          (dest_x_end dst src x - dest_x_start x ≤ 0 ∨
            dest_y_end dst src y - dest_y_start y ≤ 0))) := by
  unfold early_exit dest_x_end dest_x_start dest_y_end dest_y_start
  refine ⟨?_, ?_, ?_⟩
  · constructor
    · intro h; omega
    · intro h; omega
  · intro h; omega
  · intro h1 h2 h3 h4
    constructor
    · intro h; omega
    · intro h; omega

/-! ## The number of calls -/

/-- Counterexample to C16 as stated: with a 1×3 destination and a 1×3 source at
`x = y = 0`, three `set_pixel` calls (and three `get_pixel` calls) are issued, while
`min(dest.width, dest.height, source.width, source.height)` squared is 1. -/
theorem render_column_three_writes :
    (set_coords (issued run_column (render run_column 0 1 0 0 9 7))).length = 3 ∧
      (get_coords (issued run_column (render run_column 0 1 0 0 9 7))).length = 3 ∧
      (min (min (run_column.heap 0).width (run_column.heap 0).height)
        (min (run_column.heap 1).width (run_column.heap 1).height)) ^ 2 = 1 := by
  refine ⟨?_, ?_, by decide⟩
  · rw [render_set_coords, row_major_length]
    decide
  · rw [render_get_coords, List.length_map, row_major_length]
    decide

/-- C16, amended.  For every `dest`, `source`, `x`, `y`, `fg`, `bg`: one call of `render`
issues as many `get_pixel` calls as `set_pixel` calls, and that number is at most
`min(dest.width, source.width) * min(dest.height, source.height)`. -/
theorem render_call_count (r : Run) (dest source : Nat) (x y fg bg : Int) :
    (get_coords (issued r (render r dest source x y fg bg))).length =
        (set_coords (issued r (render r dest source x y fg bg))).length ∧
      (set_coords (issued r (render r dest source x y fg bg))).length ≤
        min (r.heap dest).width (r.heap source).width *
          min (r.heap dest).height (r.heap source).height := by
  rw [render_set_coords, render_get_coords, List.length_map, row_major_length]
  refine ⟨rfl, ?_⟩
  rw [Nat.mul_comm]
  apply Nat.mul_le_mul
  · unfold dest_x_end dest_x_start; omega
  · unfold dest_y_end dest_y_start; omega


/-! ## The zero test through `uint32_t` -/

theorem fits_word32_of_mp_int32 (v : Int) (h : mp_int_range 32 v) : fits_word32 v := by
  unfold mp_int_range at h
  unfold fits_word32
  norm_num at h
  omega

/-- Counterexample to C15 as stated: `2^32` is a value of a 64-bit machine word and is not
zero, yet for a source pixel holding it `render` passes `bg` (here 7), not `fg` (here 9), to
`set_pixel`. -/
theorem render_wide_pixel_selects_bg :
    mp_int_range 64 ((run_wide.heap 1).buf 0 0) ∧ (run_wide.heap 1).buf 0 0 ≠ 0 ∧
      issued run_wide (render run_wide 0 1 0 0 9 7) = [.get 1 0 0, .set 0 0 0 7] := by
  refine ⟨by decide, by decide, ?_⟩
  rw [render_eq_body, framebuf_render_body_sep 0 1 (by decide), issued_eq _ _ _ rfl]
  have h : pixel_colour 9 7 4294967296 = 7 := by decide
  simp [render_calls, early_exit, run_wide, mk_framebuf, MAX, MIN, rect_calls, row_calls, h]

/-- C15, amended.  In one iteration of the inner loop, with `v` the value the source's
`get_pixel` returns: the colour passed to `set_pixel` is `bg` when `v mod 2^32 = 0` and `fg`
otherwise.  When `v` fits a 32-bit word (`-2^32 < v < 2^32`, which covers every value of a
32-bit machine word and every `uint32_t` colour) that colour is `fg` when `v ≠ 0` and `bg`
when `v = 0`: for such `v` storing it in `uint32_t col` does not change the zero test. -/
theorem render_step_colour (r : Run) (dest source : Nat) (fg bg y0 y1 cx0 cx1 : Int)
    (hget : in_bounds (r.heap source) cx1 y1) (hset : in_bounds (r.heap dest) cx0 y0) :
    issued r (framebuf_render_cols dest source fg bg (cx0 + 1) y0 y1 cx0 cx1 r) =
        [.get source cx1 y1,
         .set dest cx0 y0 (if (r.heap source).buf cx1 y1 % 4294967296 = 0 then bg else fg)] ∧
      (fits_word32 ((r.heap source).buf cx1 y1) →
        (if (r.heap source).buf cx1 y1 % 4294967296 = 0 then bg else fg) =
          if (r.heap source).buf cx1 y1 ≠ 0 then fg else bg) ∧
      (mp_int_range 32 ((r.heap source).buf cx1 y1) →
        (if (r.heap source).buf cx1 y1 % 4294967296 = 0 then bg else fg) =
          if (r.heap source).buf cx1 y1 ≠ 0 then fg else bg) := by
  have hcol : ∀ v : Int, fits_word32 v →
      (if v % 4294967296 = 0 then bg else fg) = if v ≠ 0 then fg else bg := by
    intro v hv
    have := pixel_colour_of_fits fg bg v hv
    simpa [pixel_colour, uint32_t] using this
  refine ⟨?_, hcol _, fun h => hcol _ (fits_word32_of_mp_int32 _ h)⟩
  rw [framebuf_render_cols]
  have hlt : cx0 < cx0 + 1 := by omega
  simp only [hlt, if_true, get_pixel, hget, set_pixel, hset]
  rw [framebuf_render_cols]
  have hge : ¬ cx0 + 1 < cx0 + 1 := by omega
  simp only [hge, if_false, issued, uint32_t]
  simp

/-- Witness of C15 as amended: the first pixel of the single-dot example. -/
theorem render_step_colour_witness :
    in_bounds (run_dot.heap 1) 2 2 ∧ in_bounds (run_dot.heap 0) 0 0 ∧
    (issued run_dot (framebuf_render_cols 0 1 9 7 (0 + 1) 0 2 0 2 run_dot) =
        [.get 1 2 2,
         .set 0 0 0 (if (run_dot.heap 1).buf 2 2 % 4294967296 = 0 then 7 else 9)] ∧
      (fits_word32 ((run_dot.heap 1).buf 2 2) →
        (if (run_dot.heap 1).buf 2 2 % 4294967296 = 0 then (7 : Int) else 9) =
          if (run_dot.heap 1).buf 2 2 ≠ 0 then 9 else 7) ∧
      (mp_int_range 32 ((run_dot.heap 1).buf 2 2) →
        (if (run_dot.heap 1).buf 2 2 % 4294967296 = 0 then (7 : Int) else 9) =
          if (run_dot.heap 1).buf 2 2 ≠ 0 then 9 else 7)) :=
  ⟨by decide, by decide, render_step_colour run_dot 0 1 9 7 0 2 0 2 (by decide) (by decide)⟩


/-! ## Machine words -/

theorem wrap_of_range (bits : Nat) (hb : 1 ≤ bits) (v : Int) (h : mp_int_range bits v) :
    wrap bits v = v := by
  unfold mp_int_range at h
  unfold wrap
  have h2 : (2 : Int) ^ bits = 2 * 2 ^ (bits - 1) := by
    have : bits = (bits - 1) + 1 := by omega
    conv_lhs => rw [this, pow_succ]
    ring
  rw [h2]
  generalize (2 : Int) ^ (bits - 1) = M at h ⊢
  rw [Int.emod_eq_of_lt (by omega) (by omega)]
  omega

theorem wrap_neg_min (bits : Nat) (hb : 1 ≤ bits) :
    wrap bits (-(-(2 ^ (bits - 1)))) = -(2 ^ (bits - 1)) := by
  unfold wrap
  have h2 : (2 : Int) ^ bits = 2 * 2 ^ (bits - 1) := by
    have : bits = (bits - 1) + 1 := by omega
    conv_lhs => rw [this, pow_succ]
    ring
  rw [h2]
  generalize (2 : Int) ^ (bits - 1) = M
  have : - -M + M = 2 * M := by ring
  rw [this, Int.emod_self]
  omega

theorem two_pow_ge (k n : Nat) (h : k ≤ n) : (2 : Int) ^ k ≤ 2 ^ n := by
  exact_mod_cast Nat.pow_le_pow_right (by decide) h


theorem clip_word_exact (w ib : Nat) (hw : 18 ≤ w) (hib : 17 ≤ ib)
    (dst src : mp_obj_framebuf_t) (x y : Int)
    (hd : uint16_sizes dst) (hs : uint16_sizes src)
    (hx : mp_int_range w x) (hy : mp_int_range w y)
    (hxm : x ≠ -(2 ^ (w - 1))) (hym : y ≠ -(2 ^ (w - 1))) :
    (early_exit_word w dst src x y ↔ early_exit dst src x y) ∧
      (¬ early_exit dst src x y →
        -(src.width : Int) < x ∧ x < dst.width ∧ -(src.height : Int) < y ∧ y < dst.height ∧
          clip_word w ib dst src x y = clip_exact dst src x y) := by
  have hM : (131072 : Int) ≤ 2 ^ (w - 1) := by
    have := two_pow_ge 17 (w - 1) (by omega)
    norm_num at this
    exact this
  have hN : (65536 : Int) ≤ 2 ^ (ib - 1) := by
    have := two_pow_ge 16 (ib - 1) (by omega)
    norm_num at this
    exact this
  have hx' := hx
  have hy' := hy
  unfold mp_int_range at hx' hy'
  unfold uint16_sizes at hd hs
  have hnx : wrap w (-x) = -x := wrap_of_range w (by omega) (-x) (by unfold mp_int_range; omega)
  have hny : wrap w (-y) = -y := wrap_of_range w (by omega) (-y) (by unfold mp_int_range; omega)
  constructor
  · unfold early_exit_word early_exit
    rw [hnx, hny]
  · intro he
    unfold early_exit at he
    refine ⟨by omega, by omega, by omega, by omega, ?_⟩
    have hax : wrap w (x + src.width) = x + src.width :=
      wrap_of_range w (by omega) _ (by unfold mp_int_range; omega)
    have hay : wrap w (y + src.height) = y + src.height :=
      wrap_of_range w (by omega) _ (by unfold mp_int_range; omega)
    unfold clip_word clip_exact
    rw [hnx, hny, hax, hay]
    simp only [MAX_eq_max, MIN_eq_min]
    rw [wrap_of_range ib (by omega) (max 0 x) (by unfold mp_int_range; omega),
      wrap_of_range ib (by omega) (max 0 y) (by unfold mp_int_range; omega),
      wrap_of_range ib (by omega) (max 0 (-x)) (by unfold mp_int_range; omega),
      wrap_of_range ib (by omega) (max 0 (-y)) (by unfold mp_int_range; omega),
      wrap_of_range ib (by omega) (min (dst.width : Int) (x + src.width))
        (by unfold mp_int_range; omega),
      wrap_of_range ib (by omega) (min (dst.height : Int) (y + src.height))
        (by unfold mp_int_range; omega)]

theorem framebuf_render_body_word_exact (w ib : Nat) (hw : 18 ≤ w) (hib : 17 ≤ ib)
    (d s : Nat) (x y fg bg : Int) (r : Run)
    (hd : uint16_sizes (r.heap d)) (hs : uint16_sizes (r.heap s))
    (hx : mp_int_range w x) (hy : mp_int_range w y)
    (hxm : x ≠ -(2 ^ (w - 1))) (hym : y ≠ -(2 ^ (w - 1))) :
    framebuf_render_body_word w ib d s x y fg bg r = framebuf_render_body d s x y fg bg r := by
  obtain ⟨h1, h2⟩ := clip_word_exact w ib hw hib (r.heap d) (r.heap s) x y hd hs hx hy hxm hym
  unfold framebuf_render_body_word framebuf_render_body
  by_cases he : early_exit (r.heap d) (r.heap s) x y
  · simp only [he, h1.2 he, if_true]
  · have he2 : ¬ early_exit_word w (r.heap d) (r.heap s) x y := fun h => he (h1.1 h)
    simp only [he, he2, if_false, (h2 he).2.2.2.2, clip_exact, MAX_eq_max, MIN_eq_min]


/-- C17 at the failing input.  On a build with 64-bit `mp_int_t` and 32-bit `int`, for the
most negative machine word `x = -2^63` (and `y = 0`, two 2×2 surfaces): the early-exit test
is false although `x` is not above `-source.width`; the clip gives `x1 = 0` and `x0end = 2`
where the formulas over the mathematical integers give `2^63` and `-2^63 + 2`; and the loops
then overwrite the destination as if the source had been placed at `x = 0`, whereas over the
mathematical integers the call leaves it untouched.  With 32-bit `mp_int_t` the test is false
at `x = -2^31` in the same way. -/
theorem render_word_most_negative :
    mp_int_range 64 (-9223372036854775808) ∧
      ¬ early_exit_word 64 (run_pair.heap 0) (run_pair.heap 1) (-9223372036854775808) 0 ∧
      ¬ (-((run_pair.heap 1).width : Int) < -9223372036854775808) ∧
      clip_word 64 32 (run_pair.heap 0) (run_pair.heap 1) (-9223372036854775808) 0 =
        { x0 := 0, y0 := 0, x1 := 0, y1 := 0, x0end := 2, y0end := 2 } ∧
      clip_exact (run_pair.heap 0) (run_pair.heap 1) (-9223372036854775808) 0 =
        { x0 := 0, y0 := 0, x1 := 9223372036854775808, y1 := 0,
          x0end := -9223372036854775806, y0end := 2 } ∧
      rows_of ((framebuf_render_body_word 64 32 0 1 (-9223372036854775808) 0 9 7
        run_pair).2.heap 0) = [[9, 7], [7, 9]] ∧
      rows_of ((framebuf_render_body 0 1 (-9223372036854775808) 0 9 7 run_pair).2.heap 0) =
        [[0, 0], [0, 0]] ∧
      (mp_int_range 32 (-2147483648) ∧
        ¬ early_exit_word 32 (run_pair.heap 0) (run_pair.heap 1) (-2147483648) 0) := by
  have he : ¬ early_exit_word 64 (run_pair.heap 0) (run_pair.heap 1)
      (-9223372036854775808) 0 := by decide
  have hc : clip_word 64 32 (run_pair.heap 0) (run_pair.heap 1) (-9223372036854775808) 0 =
      { x0 := 0, y0 := 0, x1 := 0, y1 := 0, x0end := 2, y0end := 2 } := by decide
  refine ⟨by decide, he, by decide, hc, by decide, ?_, ?_, by decide, by decide⟩
  · unfold framebuf_render_body_word
    simp only [he, if_false, hc]
    rw [framebuf_render_rows_sep 0 1 (by decide) 9 7 0 0 2 2 2 0 0 run_pair (by decide)
      (by decide) (by decide) (by decide) (by decide) (by decide) (by decide) (by decide)
      (by decide)]
    simp [rows_of, run_pair, mk_framebuf, List.range_succ, rect_buf, pixel_colour_one,
      pixel_colour_zero]
  · rw [framebuf_render_body_sep 0 1 (by decide)]
    simp [rows_of, run_pair, mk_framebuf, List.range_succ, clip_buf]


end FramebufUtils
